import Mathlib

/-!
Verification development for the tsFlow flow-engine repository
(packages/flow-engine/src: state-machine.ts, flow-engine.ts, storage.ts).

The TypeScript code is shallowly embedded: guards, actions, entry/exit hooks,
validations and compensation actions are modelled as Lean functions that take
the flow context and return the (possibly mutated) context together with an
optional thrown-error payload; asynchronous JS functions are modelled by
explicit sequential threading of the context and the storage.  Timestamps are
modelled as a `Nat` parameter `now` supplied by the caller.
-/

namespace TsFlow

/-- Association-list get, mirroring `Map.get` (keys are unique, first match). -/
def assocGet {κ α : Type} [DecidableEq κ] : List (κ × α) → κ → Option α
  | [], _ => none
  | (k, v) :: rest, key => if k = key then some v else assocGet rest key

/-- Association-list set, mirroring `Map.set`: an existing key keeps its
position and gets the new value, a new key is appended. -/
def assocSet {κ α : Type} [DecidableEq κ] : List (κ × α) → κ → α → List (κ × α)
  | [], key, v => [(key, v)]
  | (k, w) :: rest, key, v =>
    if k = key then (key, v) :: rest else (k, w) :: assocSet rest key v

/-- `currentState` of a flow: a single state name or one name per parallel
region (TS `string | string[]`). -/
inductive StateRef where
  | single (s : String)
  | multi (states : List String)
deriving DecidableEq, Repr

/-- A hook (onEntry/onExit/transition action/compensation action,
TS `(context) => void | Promise<void>`): it may mutate the context and may
throw; `some msg` in the second component is a thrown error's message. -/
def Hook (Ctx : Type) : Type := Ctx → Ctx × Option String

/-- A transition guard (TS `(context) => boolean | Promise<boolean>`): it may
mutate the context; `none` in the second component means the guard threw. -/
def Guard (Ctx : Type) : Type := Ctx → Ctx × Option Bool

/-- Result of a validation predicate (TS `boolean | string`, or a throw). -/
inductive VRes where
  | tt
  | ff
  | str (s : String)
  | thrown (s : String)

/-- `ValidationConfig` from state-machine.ts. -/
structure ValidationConfig (Ctx : Type) where
  validate : Ctx → Ctx × VRes
  errorMessage : Option String

/-- Backoff strategy for retry (TS `'linear' | 'exponential'`). -/
inductive BackoffStrategy where
  | linear
  | exponential
deriving DecidableEq, Repr

/-- `RetryConfig` from state-machine.ts; all fields optional. -/
structure RetryConfig where
  maxAttempts : Option Nat
  backoff : Option BackoffStrategy
  delayMs : Option Nat

/-- `Transition` from state-machine.ts (`from` is renamed `fromS`). -/
structure Transition (Ctx : Type) where
  fromS : Option String
  event : String
  toS : String
  guard : Option (Guard Ctx)
  action : Option (Hook Ctx)
  retry : Option RetryConfig

/-- The optional `type` tag of a simple state (TS `'atomic' | 'final'`,
or absent). -/
inductive AType where
  | atomic
  | final
deriving DecidableEq, Repr

/-- A simple atomic `State` from state-machine.ts.  An absent `transitions`
array behaves exactly like an empty one in every reading site, so it is a
plain list here. -/
structure AtomicState (Ctx : Type) where
  name : String
  typ : Option AType
  transitions : List (Transition Ctx)
  onEntry : Option (Hook Ctx)
  onExit : Option (Hook Ctx)
  isFinal : Option Bool
  validation : Option (ValidationConfig Ctx)

/-- A `ParallelRegion` from state-machine.ts. -/
structure ParallelRegion where
  name : String
  initialState : String
  states : List String
deriving DecidableEq, Repr

/-- A `ParallelState` from state-machine.ts. -/
structure ParallelState (Ctx : Type) where
  name : String
  regions : List ParallelRegion
  onEntry : Option (Hook Ctx)
  onExit : Option (Hook Ctx)
  transitions : List (Transition Ctx)

/-- A `CompoundState` from state-machine.ts. -/
structure CompoundState (Ctx : Type) where
  name : String
  initialState : String
  states : List String
  onEntry : Option (Hook Ctx)
  onExit : Option (Hook Ctx)
  isFinal : Option Bool

/-- `StateNode`: the tagged union of the three state kinds. -/
inductive StateNode (Ctx : Type) where
  | atomic (s : AtomicState Ctx)
  | par (p : ParallelState Ctx)
  | compound (c : CompoundState Ctx)

/-- `StateMachineConfig` from state-machine.ts.  `states` is the
`Record<string, StateNode>` as an insertion-ordered association list with
unique keys; `onError` receives the error message and the context. -/
structure StateMachineConfig (Ctx : Type) where
  id : String
  version : Option String
  initialState : String
  states : List (String × StateNode Ctx)
  transitions : List (Transition Ctx)
  onError : Option (String → Ctx → Ctx × Option String)

/-- `TransitionResult` from state-machine.ts; `error` carries the message of
the `Error` object. -/
structure TransitionResult where
  success : Bool
  fromState : StateRef
  toState : StateRef
  event : String
  error : Option String
deriving DecidableEq, Repr

/-- Instrumentation of one `executeTransition` call: how many attempts of the
exit/action/validate/entry sequence ran, which backoff delays were scheduled
between consecutive attempts, and whether the definition's `onError` handler
was invoked. -/
structure ExecTrace where
  attempts : Nat
  delays : List Nat
  onErrorInvoked : Bool
deriving DecidableEq, Repr

/-- `isParallelState` from state-machine.ts. -/
def isParallelState {Ctx : Type} : StateNode Ctx → Bool
  | .par _ => true
  | _ => false

/-- `isCompoundState` from state-machine.ts. -/
def isCompoundState {Ctx : Type} : StateNode Ctx → Bool
  | .compound _ => true
  | _ => false

/-- `isAtomicState` from state-machine.ts:
`!('type' in state) || state.type === 'atomic'`.  A simple state tagged
`type: 'final'` is NOT atomic under this check. -/
def isAtomicState {Ctx : Type} : StateNode Ctx → Bool
  | .atomic s => s.typ = none || s.typ = some AType.atomic
  | _ => false

namespace StateMachine

variable {Ctx : Type}

/-- The `stateMap` lookup (`this.stateMap.get(name)`), built from the config's
`states` record. -/
def getState (cfg : StateMachineConfig Ctx) (name : String) : Option (StateNode Ctx) :=
  assocGet cfg.states name

/-- The state's own transition list as collected by `getTransitions`:
only states passing `isAtomicState` or `isParallelState` contribute. -/
def ownTransitions {Ctx : Type} : StateNode Ctx → List (Transition Ctx)
  | .atomic s =>
    if s.typ = none || s.typ = some AType.atomic then s.transitions else []
  | .par p => p.transitions
  | .compound _ => []

/-- The filter applied to the global transitions table:
`stateName === t.from || stateName.endsWith('.' + t.from)`.  When `t.from` is
absent, JS string concatenation yields the literal suffix `".undefined"`. -/
def matchesGlobalFrom (stateName : String) (t : Transition Ctx) : Bool :=
  match t.fromS with
  | some f => stateName = f || stateName.endsWith ("." ++ f)
  | none => stateName.endsWith ".undefined"

/-- `StateMachine.getTransitions`: state-local transitions first, then the
matching global transitions, in collection order. -/
def getTransitions (cfg : StateMachineConfig Ctx) (stateName : String) :
    List (Transition Ctx) :=
  match getState cfg stateName with
  | none => []
  | some st => ownTransitions st ++ cfg.transitions.filter (matchesGlobalFrom stateName)

/-- The candidate loop of `StateMachine.findTransition`: first transition
matching the event whose guard is absent or returns true; a guard that
returns false or throws is skipped and the search continues.  The context is
threaded through guard calls (guards receive the shared mutable context). -/
def findTransitionGo (event : String) :
    List (Transition Ctx) → Ctx → Option (Transition Ctx) × Ctx
  | [], ctx => (none, ctx)
  | t :: rest, ctx =>
    if t.event = event then
      match t.guard with
      | some g =>
        let r := g ctx
        match r.2 with
        | some b => if b then (some t, r.1) else findTransitionGo event rest r.1
        | none => findTransitionGo event rest r.1
      | none => (some t, ctx)
    else findTransitionGo event rest ctx

/-- `StateMachine.findTransition`. -/
def findTransition (cfg : StateMachineConfig Ctx) (currentState event : String)
    (ctx : Ctx) : Option (Transition Ctx) × Ctx :=
  match getState cfg currentState with
  | none => (none, ctx)
  | some _ => findTransitionGo event (getTransitions cfg currentState) ctx

/-- Spec-side acceptance predicate, following the spec's resolution sentence:
a candidate is selected when its event matches and its guard is absent or
returns truthy (a guard that returns false or raises does not accept).  Used
to characterize `findTransition` as a first-match search. -/
def accepts (event : String) (ctx : Ctx) (t : Transition Ctx) : Bool :=
  if t.event = event then
    match t.guard with
    | none => true
    | some g => (g ctx).2 = some true
  else false

/-- Run an optional hook (absent hooks do nothing). -/
def runHook : Option (Hook Ctx) → Ctx → Ctx × Option String
  | none, c => (c, none)
  | some h, c => h c

/-- The `onExit` field of a node (`'onExit' in state && state.onExit`). -/
def nodeOnExit {Ctx : Type} : StateNode Ctx → Option (Hook Ctx)
  | .atomic s => s.onExit
  | .par p => p.onExit
  | .compound c => c.onExit

/-- The `onEntry` field of a node. -/
def nodeOnEntry {Ctx : Type} : StateNode Ctx → Option (Hook Ctx)
  | .atomic s => s.onEntry
  | .par p => p.onEntry
  | .compound c => c.onEntry

/-- The `validation` field of a node (only simple states carry one). -/
def nodeValidation {Ctx : Type} : StateNode Ctx → Option (ValidationConfig Ctx)
  | .atomic s => s.validation
  | _ => none

/-- JS `a || b` on an optional string where the empty string is falsy. -/
def strOr (o : Option String) (d : String) : String :=
  match o with
  | some s => if s = "" then d else s
  | none => d

/-- Target-state validation step of `executeTransition`: `true` passes,
`false` fails with the configured `errorMessage` (or the default message for
the target), a returned string fails with that string, and a throw inside
`validate` fails with the thrown message. -/
def runValidation (target : String) (tgt : StateNode Ctx) (c : Ctx) :
    Ctx × Option String :=
  match nodeValidation tgt with
  | none => (c, none)
  | some v =>
    let r := v.validate c
    match r.2 with
    | .tt => (r.1, none)
    | .ff =>
      (r.1, some (strOr v.errorMessage
        ("Validation failed for state \"" ++ target ++ "\"")))
    | .str s => (r.1, some s)
    | .thrown m => (r.1, some m)

/-- One attempt of the retried body of `executeTransition`:
exit action, transition action, target lookup, validation, entry action, in
that order, stopping at the first thrown error. -/
def attemptOnce (cfg : StateMachineConfig Ctx) (st : StateNode Ctx)
    (t : Transition Ctx) (ctx : Ctx) : Ctx × Option String :=
  let r1 := runHook (nodeOnExit st) ctx
  match r1.2 with
  | some m => (r1.1, some m)
  | none =>
    let r2 := runHook t.action r1.1
    match r2.2 with
    | some m => (r2.1, some m)
    | none =>
      match getState cfg t.toS with
      | none => (r2.1, some ("Target state \"" ++ t.toS ++ "\" not found"))
      | some tgt =>
        let r3 := runValidation t.toS tgt r2.1
        match r3.2 with
        | some m => (r3.1, some m)
        | none => runHook (nodeOnEntry tgt) r3.1

/-- The retry loop of `executeTransition`, running attempts numbered
`attempt, attempt+1, ...` with `remaining` further attempts allowed after the
current one.  Returns the final context, the last error (`none` on success),
the number of attempts executed and the delays scheduled between consecutive
attempts. -/
def attemptLoop (cfg : StateMachineConfig Ctx) (st : StateNode Ctx)
    (t : Transition Ctx) (exponential : Bool) (delayMs : Nat) :
    Nat → Nat → Ctx → Ctx × Option String × Nat × List Nat
  | attempt, remaining, ctx =>
    match attemptOnce cfg st t ctx with
    | (c, none) => (c, none, 1, [])
    | (c, some m) =>
      match remaining with
      | 0 => (c, some m, 1, [])
      | rem + 1 =>
        match attemptLoop cfg st t exponential delayMs (attempt + 1) rem c with
        | (c', e', n, ds) =>
          (c', e', n + 1,
            (if exponential then delayMs * 2 ^ attempt
             else delayMs * (attempt + 1)) :: ds)

/-- `maxAttempts = retryConfig.maxAttempts || 0` (0 and absent coincide). -/
def retryMaxAttempts (r : Option RetryConfig) : Nat :=
  match r with
  | none => 0
  | some c => c.maxAttempts.getD 0

/-- `delayMs = retryConfig.delayMs || 1000`: in JS, an explicit 0 is falsy
and also falls back to the default 1000. -/
def retryDelayMs (r : Option RetryConfig) : Nat :=
  match r with
  | none => 1000
  | some c =>
    match c.delayMs with
    | none => 1000
    | some v => if v = 0 then 1000 else v

/-- `backoff = retryConfig.backoff || 'linear'`, as "is exponential". -/
def retryExponential (r : Option RetryConfig) : Bool :=
  match r with
  | none => false
  | some c => c.backoff = some BackoffStrategy.exponential

/-- The post-loop `onError` invocation: the handler (if registered on the
definition) runs on the context; its own thrown error is discarded. -/
def applyOnError (onErr : Option (String → Ctx → Ctx × Option String))
    (m : String) (c : Ctx) : Ctx × Bool :=
  match onErr with
  | some h => ((h m c).1, true)
  | none => (c, false)

/-- `StateMachine.executeTransition`.  Returns the `TransitionResult`, the
final context, and the instrumentation trace.  (The dead
`lastError || new Error('Unknown error during transition')` fallback is
unreachable: after a failed loop the last error is always present.) -/
def executeTransition (cfg : StateMachineConfig Ctx) (currentState event : String)
    (ctx : Ctx) : TransitionResult × Ctx × ExecTrace :=
  match getState cfg currentState with
  | none =>
    (⟨false, .single currentState, .single currentState, event,
      some ("State \"" ++ currentState ++ "\" not found")⟩, ctx, ⟨0, [], false⟩)
  | some st =>
    let f := findTransition cfg currentState event ctx
    match f.1 with
    | none =>
      (⟨false, .single currentState, .single currentState, event,
        some ("No valid transition for event \"" ++ event ++ "\" from state \""
          ++ currentState ++ "\"")⟩, f.2, ⟨0, [], false⟩)
    | some t =>
      let maxA := retryMaxAttempts t.retry
      let dm := retryDelayMs t.retry
      let expo := retryExponential t.retry
      let lp := attemptLoop cfg st t expo dm 0 maxA f.2
      match lp.2.1 with
      | none =>
        (⟨true, .single currentState, .single t.toS, event, none⟩, lp.1,
          ⟨lp.2.2.1, lp.2.2.2, false⟩)
      | some m =>
        let oe := applyOnError cfg.onError m lp.1
        (⟨false, .single currentState, .single currentState, event, some m⟩,
          oe.1, ⟨lp.2.2.1, lp.2.2.2, oe.2⟩)

/-- `StateMachine.isFinalState`. -/
def isFinalState (cfg : StateMachineConfig Ctx) (stateName : String) : Bool :=
  match getState cfg stateName with
  | none => false
  | some (.atomic s) =>
    if s.typ = some AType.final then true else s.isFinal = some true
  | some (.compound c) => c.isFinal = some true
  | some (.par _) => false

end StateMachine

/-! ## Flow instances and the value-level storage model (storage.ts)

For the engine-level claims the store round-trips are modelled with value
semantics (the engine is a single sequential writer and never mutates a
snapshot it has already handed out inside one operation).  The aliasing
behaviour of the spread-copy `{ ...state }` is modelled separately below for
the snapshot-independence claim. -/

/-- Flow status (TS string union). -/
inductive Status where
  | active
  | completed
  | failed
  | paused
  | compensating
deriving DecidableEq, Repr

/-- Render a status the way the TS string literals read. -/
def Status.toStr : Status → String
  | .active => "active"
  | .completed => "completed"
  | .failed => "failed"
  | .paused => "paused"
  | .compensating => "compensating"

/-- A history record of `FlowState.history`. -/
structure HistoryEntry where
  fromS : StateRef
  toS : StateRef
  timestamp : Nat
  event : Option String
deriving DecidableEq, Repr

/-- The `error` record of a failed flow. -/
structure ErrorInfo where
  message : String
  state : StateRef
  timestamp : Nat
deriving DecidableEq, Repr

/-- A `CompensationRecord` from storage.ts: the state label pinned at
recording time, the undo action, and metadata. -/
structure CompensationRecord (Ctx : Type) where
  state : String
  action : Hook Ctx
  timestamp : Nat
  description : Option String

/-- `FlowState` from storage.ts.  An absent `compensations` array behaves
exactly like an empty one at every reading site, so it is a plain list.  The
`subFlows` and `templateParams` fields are never read by the operations
verified here and are omitted. -/
structure FlowState (Ctx : Type) where
  flowId : String
  flowDefinitionId : String
  version : Option String
  currentState : StateRef
  context : Ctx
  createdAt : Nat
  updatedAt : Nat
  history : List HistoryEntry
  status : Status
  error : Option ErrorInfo
  compensations : List (CompensationRecord Ctx)
  parentFlowId : Option String

/-- The two maps of `InMemoryStateStorage`:
`flowId → instance` and `idempotency key → flowId`. -/
structure Storage (Ctx : Type) where
  flows : List (String × FlowState Ctx)
  idempotencyKeys : List (String × String)

namespace Storage

variable {Ctx : Type}

/-- `InMemoryStateStorage.save` (value level). -/
def save (w : Storage Ctx) (s : FlowState Ctx) : Storage Ctx :=
  { w with flows := assocSet w.flows s.flowId s }

/-- `InMemoryStateStorage.get` (value level). -/
def get (w : Storage Ctx) (flowId : String) : Option (FlowState Ctx) :=
  assocGet w.flows flowId

/-- `InMemoryStateStorage.saveIdempotencyKey`. -/
def saveIdempotencyKey (w : Storage Ctx) (key flowId : String) : Storage Ctx :=
  { w with idempotencyKeys := assocSet w.idempotencyKeys key flowId }

/-- `InMemoryStateStorage.getFlowIdByIdempotencyKey`. -/
def getFlowIdByIdempotencyKey (w : Storage Ctx) (key : String) : Option String :=
  assocGet w.idempotencyKeys key

/-- The `currentState` clause of `InMemoryStateStorage.list`'s filter. -/
def matchesCurrentState (cur target : StateRef) : Bool :=
  match cur, target with
  | .multi cs, .multi ts => ts.all (fun t => cs.contains t)
  | .multi cs, .single t => cs.contains t
  | .single c, .multi ts => ts.contains c
  | .single c, .single t => c = t

/-- Spec-side notion of a flow's active state(s): the single current state,
or the list of active region states for a parallel flow. -/
def activeStateList : StateRef → List String
  | .single s => [s]
  | .multi states => states

/-- The filter argument of `list` (TS `Partial<Pick<FlowState, ...>>`). -/
structure ListFilter where
  status : Option Status
  flowDefinitionId : Option String
  version : Option String
  parentFlowId : Option String
  currentState : Option StateRef

/-- JS truthiness guard on an optional string filter field
(`if (filter.x)`): an absent or empty-string field does not filter. -/
def truthyStr : Option String → Option String
  | none => none
  | some s => if s = "" then none else some s

/-- `InMemoryStateStorage.list`: the filter clauses applied in source order,
forming a conjunction. -/
def list (w : Storage Ctx) (filter : Option ListFilter) : List (FlowState Ctx) :=
  let states := w.flows.map Prod.snd
  match filter with
  | none => states
  | some f =>
    let s1 := match f.status with
      | none => states
      | some st => states.filter (fun s => s.status = st)
    let s2 := match truthyStr f.flowDefinitionId with
      | none => s1
      | some d => s1.filter (fun s => s.flowDefinitionId = d)
    let s3 := match truthyStr f.version with
      | none => s2
      | some v => s2.filter (fun s => s.version = some v)
    let s4 := match f.parentFlowId with
      | none => s3
      | some p => s3.filter (fun s => s.parentFlowId = some p)
    match f.currentState with
    | none => s4
    | some target => s4.filter (fun s => matchesCurrentState s.currentState target)

end Storage

/-! ## FlowEngine (flow-engine.ts) -/

/-- `FlowExecuteOptions`.  `targetRegion` carries the integer value of
`parseInt(options.targetRegion, 10)`; a non-numeric string (NaN) takes the
same invalid-region path as an out-of-range index. -/
structure FlowExecuteOptions (Ctx : Type) where
  event : String
  data : Option Ctx
  targetRegion : Option Int
  idempotencyKey : Option String

/-- `FlowExecutionResult` from flow-engine.ts (`compensated` is optional). -/
structure FlowExecutionResult (Ctx : Type) where
  success : Bool
  state : FlowState Ctx
  transition : TransitionResult
  compensated : Option Bool

namespace FlowEngine

variable {Ctx : Type}

open StateMachine

/-- `FlowEngine.isFlowComplete`. -/
def isFlowComplete (cfg : StateMachineConfig Ctx) (fs : FlowState Ctx) : Bool :=
  match fs.currentState with
  | .multi states => states.all (fun s => isFinalState cfg s)
  | .single s => isFinalState cfg s

/-- `FlowEngine.compensate`.  Returns the updated instance, the
`didCompensate` flag, and the trace of compensation records invoked, in
invocation order.  The body of the reverse-order loop is entirely wrapped in
a try/catch that logs and continues, so an individual action's failure never
stops the iteration; since nothing else inside the outer try can throw, the
outer `Compensation failed:` catch is unreachable.  The intermediate
`status = 'compensating'` save performed mid-procedure is overwritten by the
caller's final save of the same instance and is not observable here. -/
def compensate (fs : FlowState Ctx) (errorMessage : String) (now : Nat) :
    FlowState Ctx × Bool × List (CompensationRecord Ctx) :=
  if fs.compensations.isEmpty then
    ({ fs with
        status := Status.failed
        error := some ⟨errorMessage, fs.currentState, now⟩ }, false, [])
  else
    let step := fun (acc : Ctx × List (CompensationRecord Ctx))
        (comp : CompensationRecord Ctx) =>
      ((comp.action acc.1).1, acc.2 ++ [comp])
    let folded := fs.compensations.reverse.foldl step (fs.context, [])
    ({ fs with
        context := folded.1
        status := Status.failed
        error := some ⟨errorMessage ++ " (compensated)", fs.currentState, now⟩ },
      true, folded.2)

/-- The broadcast `Promise.all` of `executeParallelTransition`: each region's
transition, in region order, threading the shared context (the `.catch` to
`null` is dead because `executeTransition` resolves with a result for every
input). -/
def regionResults (cfg : StateMachineConfig Ctx) (event : String) :
    List String → Ctx → List TransitionResult × Ctx
  | [], ctx => ([], ctx)
  | s :: rest, ctx =>
    let r := executeTransition cfg s event ctx
    let rs := regionResults cfg event rest r.2.1
    (r.1 :: rs.1, rs.2)

/-- The merge step of the broadcast: regions whose transition succeeded move
to its target, the rest keep their entry; a successful region whose target is
itself a list throws `Nested parallel states not yet supported`. -/
def mergeRegions : List String → List TransitionResult → Except String (List String)
  | [], _ => .ok []
  | s :: rest, [] =>
    match mergeRegions rest [] with
    | .error m => .error m
    | .ok ns => .ok (s :: ns)
  | s :: rest, t :: ts =>
    if t.success then
      match t.toState with
      | .multi _ => .error "Nested parallel states not yet supported"
      | .single x =>
        match mergeRegions rest ts with
        | .error m => .error m
        | .ok ns => .ok (x :: ns)
    else
      match mergeRegions rest ts with
      | .error m => .error m
      | .ok ns => .ok (s :: ns)

/-- `FlowEngine.executeParallelTransition`.  The first component is the
thrown error (`.error`) or the returned `TransitionResult` (`.ok`); the
second is the context after the region transitions ran. -/
def executeParallelTransition (cfg : StateMachineConfig Ctx)
    (states : List String) (opts : FlowExecuteOptions Ctx) (ctx : Ctx) :
    Except String TransitionResult × Ctx :=
  match opts.targetRegion with
  | some r =>
    if r < 0 then
      (.error ("Invalid region index: " ++ toString r), ctx)
    else if (states.length : Int) ≤ r then
      (.error ("Invalid region index: " ++ toString r), ctx)
    else
      let idx := r.toNat
      let cur := states.getD idx ""
      let er := executeTransition cfg cur opts.event ctx
      let res := er.1
      if res.success then
        match res.toState with
        | .multi _ => (.error "Nested parallel states not yet supported", er.2.1)
        | .single x =>
          (.ok { res with
                  fromState := StateRef.multi states
                  toState := StateRef.multi (states.set idx x) }, er.2.1)
      else (.ok res, er.2.1)
  | none =>
    let rr := regionResults cfg opts.event states ctx
    if (rr.1.filter (fun t => t.success)).isEmpty then
      (.ok ⟨false, .multi states, .multi states, opts.event,
        some "No region accepted the event"⟩, rr.2)
    else
      match mergeRegions states rr.1 with
      | .error m => (.error m, rr.2)
      | .ok ns => (.ok ⟨true, .multi states, .multi ns, opts.event, none⟩, rr.2)

/-- The `transition.error?.message || 'Transition failed'` fallback of
`executeCore` (the empty string is falsy in JS). -/
def failMessage (e : Option String) : String :=
  match e with
  | some m => if m = "" then "Transition failed" else m
  | none => "Transition failed"

/-- The catch block of `executeCore`: run the compensation procedure, build
the failure `TransitionResult` from the (unchanged) current state, save, and
return with `compensated` set. -/
def handleFailure (w : Storage Ctx) (fs : FlowState Ctx)
    (event msg : String) (now : Nat) :
    Storage Ctx × Except String (FlowExecutionResult Ctx) :=
  let c := compensate fs msg now
  let tr : TransitionResult :=
    ⟨false, c.1.currentState, c.1.currentState, event, some msg⟩
  (w.save c.1, .ok ⟨false, c.1, tr, some c.2.1⟩)

/-- The `Object.assign(flowState.context, options.data)` step of
`executeCore`; `merge` models `Object.assign` on the context type. -/
def mergeData (merge : Ctx → Ctx → Ctx) (fs : FlowState Ctx)
    (d : Option Ctx) : FlowState Ctx :=
  match d with
  | none => fs
  | some dd => { fs with context := merge fs.context dd }

/-- The transition dispatch at the top of `executeCore`'s try block:
parallel flows go through the parallel dispatcher, simple flows through
`StateMachine.executeTransition`. -/
def coreTransition (cfg : StateMachineConfig Ctx) (fs : FlowState Ctx)
    (opts : FlowExecuteOptions Ctx) : Except String TransitionResult × Ctx :=
  match fs.currentState with
  | .multi states => executeParallelTransition cfg states opts fs.context
  | .single s =>
    match executeTransition cfg s opts.event fs.context with
    | (r, c, _) => (.ok r, c)

/-- The success path of `executeCore`: append the history record, move
`currentState`, and complete the flow when the new state is final. -/
def advance (cfg : StateMachineConfig Ctx) (now : Nat) (fs : FlowState Ctx)
    (tr : TransitionResult) (event : String) : FlowState Ctx :=
  let fs3 := { fs with
    history := fs.history ++ [⟨tr.fromState, tr.toState, now, some event⟩]
    currentState := tr.toState }
  if isFlowComplete cfg fs3 then { fs3 with status := Status.completed } else fs3

/-- `executeCore` past the pre-checks, on the (data-merged) instance. -/
def executeCoreActive (cfg : StateMachineConfig Ctx) (now : Nat)
    (w : Storage Ctx) (opts : FlowExecuteOptions Ctx) (fs1 : FlowState Ctx) :
    Storage Ctx × Except String (FlowExecutionResult Ctx) :=
  match coreTransition cfg fs1 opts with
  | (.error m, c) =>
    -- a throw from the parallel dispatcher, before `updatedAt` is touched
    handleFailure w { fs1 with context := c } opts.event m now
  | (.ok tr, c) =>
    if tr.success then
      (w.save (advance cfg now { fs1 with context := c, updatedAt := now } tr opts.event),
        .ok ⟨true,
          advance cfg now { fs1 with context := c, updatedAt := now } tr opts.event,
          tr, some false⟩)
    else
      handleFailure w { fs1 with context := c, updatedAt := now } opts.event
        (failMessage tr.error) now

/-- `FlowEngine.executeCore`.  A `.error` result is an error raised
synchronously to the caller (`NotFound` / `NotActive`). -/
def executeCore (cfg : StateMachineConfig Ctx) (merge : Ctx → Ctx → Ctx)
    (now : Nat) (w : Storage Ctx) (flowId : String)
    (opts : FlowExecuteOptions Ctx) :
    Storage Ctx × Except String (FlowExecutionResult Ctx) :=
  match w.get flowId with
  | none => (w, .error ("Flow with ID \"" ++ flowId ++ "\" not found"))
  | some fs0 =>
    if fs0.status ≠ Status.active then
      (w, .error ("Flow is not active. Current status: " ++ fs0.status.toStr))
    else
      executeCoreActive cfg now w opts (mergeData merge fs0 opts.data)

/-- The idempotency guard at the top of `FlowEngine.execute`: a key already
bound to any flow yields a no-op success over the current instance (falling
through to the core when the instance is missing); a fresh key is bound to
this flow before the core runs. -/
def executeWithKey (cfg : StateMachineConfig Ctx) (merge : Ctx → Ctx → Ctx)
    (now : Nat) (w : Storage Ctx) (flowId : String)
    (opts : FlowExecuteOptions Ctx) (key : String) :
    Storage Ctx × Except String (FlowExecutionResult Ctx) :=
  match w.getFlowIdByIdempotencyKey key with
  | some _existingFlowId =>
    match w.get flowId with
    | some fs =>
      (w, .ok ⟨true, fs,
        ⟨true, fs.currentState, fs.currentState, opts.event, none⟩, none⟩)
    | none => executeCore cfg merge now w flowId opts
  | none =>
    executeCore cfg merge now (w.saveIdempotencyKey key flowId) flowId opts

/-- `FlowEngine.execute` with an empty middleware chain (with no registered
middleware the engine invokes the core step directly). -/
def execute (cfg : StateMachineConfig Ctx) (merge : Ctx → Ctx → Ctx)
    (now : Nat) (w : Storage Ctx) (flowId : String)
    (opts : FlowExecuteOptions Ctx) :
    Storage Ctx × Except String (FlowExecutionResult Ctx) :=
  match opts.idempotencyKey with
  | some key => executeWithKey cfg merge now w flowId opts key
  | none => executeCore cfg merge now w flowId opts

/-- The JS `Set`-based deduplicated accumulation used by
`getPossibleTransitions` for parallel flows (insertion order preserved). -/
def addUnique (acc : List String) (x : String) : List String :=
  if acc.contains x then acc else acc ++ [x]

/-- The event-name collection of `getPossibleTransitions`: for a parallel
flow, the events of all regions' transitions collected through a `Set`
(deduplicated, insertion order); for a single-state flow, a plain `map`
over the state's transitions (no deduplication). -/
def possibleTransitionsOf (cfg : StateMachineConfig Ctx) (fs : FlowState Ctx) :
    List String :=
  match fs.currentState with
  | .multi states =>
    states.foldl
      (fun acc s => (getTransitions cfg s).foldl
        (fun a t => addUnique a t.event) acc) []
  | .single s => (getTransitions cfg s).map (fun t => t.event)

/-- `FlowEngine.getPossibleTransitions`. -/
def getPossibleTransitions (cfg : StateMachineConfig Ctx) (w : Storage Ctx)
    (flowId : String) : Except String (List String) :=
  match w.get flowId with
  | none => .error ("Flow with ID \"" ++ flowId ++ "\" not found")
  | some fs => .ok (possibleTransitionsOf cfg fs)

end FlowEngine

/-! ## Object-identity model of `InMemoryStateStorage.save`/`get`

`save` stores `{ ...state }` and `get` returns `{ ...state }`: a spread copy
duplicates the record's own fields into a fresh object, so nested objects —
the `context` map, the `history` array, the `compensations` array — stay
shared by reference between the stored record and the returned snapshot.
This model makes that reference structure explicit: flow records and context
objects live on a heap addressed by `Nat` references, and a flow record's
`context` field holds such a reference.  The `history` and `compensations`
fields behave identically and are represented by the single `contextRef`
exemplar plus the inline scalar fields. -/

namespace JsAlias

/-- A JS context object: a plain string-to-string object. -/
def CtxObj : Type := List (String × String)

/-- The own fields of a `FlowState` object: scalars are held inline (a spread
copies them by value), the nested context object is held by reference. -/
structure JsFlowRec where
  flowId : String
  currentState : StateRef
  status : Status
  contextRef : Nat
deriving DecidableEq, Repr

/-- The heap: flow records and context objects addressed by references below
the allocation counter `next`. -/
structure JsHeap where
  recs : List (Nat × JsFlowRec)
  ctxObjs : List (Nat × CtxObj)
  next : Nat

/-- `InMemoryStateStorage.save`: `this.states.set(state.flowId, {...state})`
allocates a fresh record with the same own fields (nested references
shared).  `store` is the `flowId → object reference` map of the `states`
Map.  (Dereferencing a dangling reference cannot happen in a run of the
program and is modelled as a no-op.) -/
def save (h : JsHeap) (store : List (String × Nat)) (sref : Nat) :
    JsHeap × List (String × Nat) :=
  match assocGet h.recs sref with
  | none => (h, store)
  | some r0 =>
    ({ h with recs := assocSet h.recs h.next r0, next := h.next + 1 },
      assocSet store r0.flowId h.next)

/-- The `{ ...state }` copy of `get`: allocate a fresh record with the same
own fields (nested references shared) and return its reference. -/
def getRef (h : JsHeap) (sref : Nat) : JsHeap × Option Nat :=
  match assocGet h.recs sref with
  | none => (h, none)
  | some r0 =>
    ({ h with recs := assocSet h.recs h.next r0, next := h.next + 1 },
      some h.next)

/-- `InMemoryStateStorage.get`: `state ? { ...state } : null`. -/
def get (h : JsHeap) (store : List (String × Nat)) (flowId : String) :
    JsHeap × Option Nat :=
  match assocGet store flowId with
  | none => (h, none)
  | some sref => getRef h sref

/-- Caller-side mutation of a nested field: `snapshot.context[k] = v`,
reaching the context object through the given context reference. -/
def setContextField (h : JsHeap) (cref : Nat) (k v : String) : JsHeap :=
  { h with ctxObjs :=
      match assocGet h.ctxObjs cref with
      | none => h.ctxObjs
      | some c => assocSet h.ctxObjs cref (assocSet c k v) }

/-- Caller-side mutation of a top-level field: `snapshot.status = st`. -/
def setStatus (h : JsHeap) (sref : Nat) (st : Status) : JsHeap :=
  { h with recs :=
      match assocGet h.recs sref with
      | none => h.recs
      | some r0 => assocSet h.recs sref { r0 with status := st } }

/-- The context contents observed through a flow record reference
(what a caller sees reading `flow.context`). -/
def readContext (h : JsHeap) (sref : Nat) : Option CtxObj :=
  match assocGet h.recs sref with
  | none => none
  | some r0 => assocGet h.ctxObjs r0.contextRef

end JsAlias

/-! ## Concrete instances used by witnesses and counterexamples -/

/-- A compensation record whose action increments the context and throws. -/
def compRecThrowing : CompensationRecord Nat :=
  ⟨"step1", fun c => (c + 1, some "undo1 blew up"), 10, some "u1"⟩

/-- A compensation record whose action doubles the context and succeeds. -/
def compRecOk : CompensationRecord Nat :=
  ⟨"step2", fun c => (c * 2, none), 11, some "u2"⟩

/-- A flow instance with two recorded compensations (recording order:
`compRecThrowing` then `compRecOk`). -/
def fsWithComps : FlowState Nat :=
  ⟨"f1", "def1", some "1.0.0", .single "s2", 5, 0, 1,
    [⟨.single "s1", .single "s2", 1, some "GO"⟩], .active, none,
    [compRecThrowing, compRecOk], none⟩

/-- A state-machine configuration with no states at all. -/
def cfgEmpty : StateMachineConfig Nat :=
  ⟨"m0", none, "s0", [], [], none⟩

/-- A plain atomic state with no transitions or hooks. -/
def plainState (n : String) : StateNode Nat :=
  .atomic ⟨n, none, [], none, none, none, none⟩

/-- A transition on event "go" whose guard always throws. -/
def tGuardThrows : Transition Nat :=
  ⟨none, "go", "a", some (fun c => (c, none)), none, none⟩

/-- An unguarded transition on event "go". -/
def tUnguarded : Transition Nat :=
  ⟨none, "go", "b", none, none, none⟩

/-- A source state whose first "go" candidate has a throwing guard and whose
second is unguarded. -/
def stResolution : StateNode Nat :=
  .atomic ⟨"s", none, [tGuardThrows, tUnguarded], none, none, none, none⟩

/-- Configuration for the resolution witness. -/
def cfgResolution : StateMachineConfig Nat :=
  ⟨"m6", none, "s",
    [("s", stResolution), ("a", plainState "a"), ("b", plainState "b")],
    [], none⟩

/-- A transition whose action always throws, with retry
`{maxAttempts: 2, backoff: exponential, delayMs: 10}`. -/
def tRetry : Transition Nat :=
  ⟨none, "go", "a", none, some (fun c => (c + 1, some "action failed")),
    some ⟨some 2, some BackoffStrategy.exponential, some 10⟩⟩

/-- Source state for the retry witness. -/
def stRetry : StateNode Nat :=
  .atomic ⟨"s", none, [tRetry], none, none, none, none⟩

/-- Configuration for the retry witness, with an `onError` handler. -/
def cfgRetry : StateMachineConfig Nat :=
  ⟨"m5", none, "s", [("s", stRetry), ("a", plainState "a")], [],
    some (fun _ c => (c, none))⟩

/-- Region 1 transition for the broadcast witness. -/
def tRegionOne : Transition Nat := ⟨none, "go", "r1b", none, none, none⟩

/-- Region 1 source state for the broadcast witness. -/
def stRegionOne : StateNode Nat :=
  .atomic ⟨"r1a", none, [tRegionOne], none, none, none, none⟩

/-- Configuration for the broadcast witness: region state "r1a" accepts
"go", region state "r2a" accepts nothing. -/
def cfgBroadcast : StateMachineConfig Nat :=
  ⟨"m4", none, "p",
    [("r1a", stRegionOne), ("r1b", plainState "r1b"), ("r2a", plainState "r2a")],
    [], none⟩

/-- Execute options for the broadcast witness (no target region). -/
def optsBroadcast : FlowExecuteOptions Nat := ⟨"go", none, none, none⟩

/-- The APPROVE transition of the simple order flow. -/
def tApprove : Transition Nat := ⟨none, "APPROVE", "approved", none, none, none⟩

/-- The pending state of the simple order flow. -/
def stPending : StateNode Nat :=
  .atomic ⟨"pending", none, [tApprove], none, none, none, none⟩

/-- A simple two-state order flow configuration. -/
def cfgSimple : StateMachineConfig Nat :=
  ⟨"order", none, "pending",
    [("pending", stPending), ("approved", plainState "approved")], [], none⟩

/-- An active instance of the simple order flow sitting at "pending". -/
def fsPendingFlow : FlowState Nat :=
  ⟨"f", "order", none, .single "pending", 0, 0, 0, [], .active, none, [], none⟩

/-- A store holding only the pending instance, no bound keys. -/
def wSimple : Storage Nat := ⟨[("f", fsPendingFlow)], []⟩

/-- The pending instance after the APPROVE event executed at time 3. -/
def fsApprovedFlow : FlowState Nat :=
  ⟨"f", "order", none, .single "approved", 0, 0, 3,
    [⟨.single "pending", .single "approved", 3, some "APPROVE"⟩],
    .active, none, [], none⟩

/-- Execute options firing APPROVE under idempotency key "k1". -/
def optsIdem : FlowExecuteOptions Nat := ⟨"APPROVE", none, none, some "k1"⟩

/-- A trivial `Object.assign` model on `Nat` contexts. -/
def mergeRight : Nat → Nat → Nat := fun _ b => b

/-- A paused instance of the simple order flow. -/
def fsPausedFlow : FlowState Nat :=
  ⟨"p", "order", none, .single "pending", 0, 0, 0, [], .paused, none, [], none⟩

/-- A store holding only the paused instance, no bound keys. -/
def wPaused : Storage Nat := ⟨[("p", fsPausedFlow)], []⟩

/-- An empty store. -/
def wEmpty : Storage Nat := ⟨[], []⟩

/-- Execute options firing "go" under idempotency key "k2". -/
def optsKey2 : FlowExecuteOptions Nat := ⟨"go", none, none, some "k2"⟩

/-- A stored flow record whose context object lives at heap reference 0. -/
def cexRec : JsAlias.JsFlowRec := ⟨"x", .single "pending", .active, 0⟩

/-- A heap holding the record at reference 1 and its (empty) context object
at reference 0. -/
def cexHeap : JsAlias.JsHeap := ⟨[(1, cexRec)], [(0, [])], 2⟩

/-- A store mapping flow "x" to the record at reference 1. -/
def cexStore : List (String × Nat) := [("x", 1)]

/-- The heap after `get` handed out a snapshot of "x" (at reference 2). -/
def cexHeap1 : JsAlias.JsHeap := (JsAlias.get cexHeap cexStore "x").1

/-- The heap after the caller mutated `snapshot.context` (context reference
0, shared with the stored record) through the returned snapshot. -/
def cexHeap2 : JsAlias.JsHeap := JsAlias.setContextField cexHeap1 0 "k" "v"

/-- A single-state flow sitting at "a", for the list-filter counterexample. -/
def fsSingleA : FlowState Nat :=
  ⟨"fa", "d", none, .single "a", 0, 0, 0, [], .active, none, [], none⟩

/-- A store holding only `fsSingleA`. -/
def wFilter : Storage Nat := ⟨[("fa", fsSingleA)], []⟩

/-- A list-valued `currentState` filter requesting both "a" and "b". -/
def filtListAB : Storage.ListFilter :=
  ⟨none, none, none, none, some (.multi ["a", "b"])⟩

/-- Two transitions sharing the event "go" on one state. -/
def tGoA : Transition Nat := ⟨none, "go", "a", none, none, none⟩

/-- Second "go" transition, to a different target. -/
def tGoB : Transition Nat := ⟨none, "go", "b", none, none, none⟩

/-- A state with two transitions on the same event "go". -/
def stDup : StateNode Nat :=
  .atomic ⟨"s", none, [tGoA, tGoB], none, none, none, none⟩

/-- A second region state with one "go" transition. -/
def stDup2 : StateNode Nat :=
  .atomic ⟨"s2", none, [tGoA], none, none, none, none⟩

/-- Configuration whose state "s" has duplicate event names. -/
def cfgDup : StateMachineConfig Nat :=
  ⟨"m9", none, "s",
    [("s", stDup), ("s2", stDup2), ("a", plainState "a"),
      ("b", plainState "b")], [], none⟩

/-- A single-state flow at "s". -/
def fsAtS : FlowState Nat :=
  ⟨"fs9", "m9", none, .single "s", 0, 0, 0, [], .active, none, [], none⟩

/-- A parallel flow active in "s" and "s2". -/
def fsPar9 : FlowState Nat :=
  ⟨"fp9", "m9", none, .multi ["s", "s2"], 0, 0, 0, [], .active, none, [], none⟩

/-- A store holding both flows. -/
def wDup : Storage Nat := ⟨[("fs9", fsAtS), ("fp9", fsPar9)], []⟩

/-! ## Lemmas and claim theorems -/

section Lemmas

variable {κ α : Type} [DecidableEq κ]

/-- Reading back the key just set. -/
theorem assocGet_assocSet_self (l : List (κ × α)) (k : κ) (v : α) :
    assocGet (assocSet l k v) k = some v := by
  induction l with
  | nil => simp [assocGet, assocSet]
  | cons p rest ih =>
    obtain ⟨k', w⟩ := p
    by_cases hk : k' = k
    · simp [assocGet, assocSet, hk]
    · simp [assocGet, assocSet, hk, ih]

/-- Setting one key does not change another key's binding. -/
theorem assocGet_assocSet_ne (l : List (κ × α)) (k k' : κ) (v : α)
    (h : k' ≠ k) : assocGet (assocSet l k v) k' = assocGet l k' := by
  induction l with
  | nil => simp [assocGet, assocSet, Ne.symm h]
  | cons p rest ih =>
    obtain ⟨k0, w⟩ := p
    by_cases hk : k0 = k
    · subst hk
      simp [assocGet, assocSet, Ne.symm h]
    · simp only [assocSet, if_neg hk]
      by_cases hk' : k0 = k'
      · simp [assocGet, hk']
      · simp [assocGet, hk', ih]

end Lemmas

section C1

variable {Ctx : Type}

/-- The compensation loop's invocation trace is the iterated list itself,
whatever the individual actions do (their failures are caught inside the
loop body). -/
theorem compensate_foldl_trace (l : List (CompensationRecord Ctx))
    (c : Ctx) (acc : List (CompensationRecord Ctx)) :
    (l.foldl (fun acc comp => ((comp.action acc.1).1, acc.2 ++ [comp])) (c, acc)).2
      = acc ++ l := by
  induction l generalizing c acc with
  | nil => simp
  | cons hd tl ih =>
    simp only [List.foldl_cons, ih, List.append_assoc, List.cons_append,
      List.nil_append, List.singleton_append]

/-- C1: the compensation procedure's contract.  With an empty stack it marks
the instance failed with the raw reason and reports `didCompensate = false`
without invoking anything; with a non-empty stack it invokes every recorded
action exactly once in reverse recording order (an action's own failure is
ignored and iteration continues — the trace below is independent of the
action outcomes), leaves the records on the instance, marks the instance
failed with the reason suffixed by " (compensated)", and reports
`didCompensate = true`. -/
theorem C1_compensation_contract (fs : FlowState Ctx) (reason : String)
    (now : Nat) :
    (fs.compensations = [] →
      FlowEngine.compensate fs reason now =
        ({ fs with
            status := Status.failed
            error := some ⟨reason, fs.currentState, now⟩ }, false, []))
    ∧ (fs.compensations ≠ [] →
      (FlowEngine.compensate fs reason now).2.2 = fs.compensations.reverse
      ∧ (FlowEngine.compensate fs reason now).2.1 = true
      ∧ (FlowEngine.compensate fs reason now).1.compensations = fs.compensations
      ∧ (FlowEngine.compensate fs reason now).1.status = Status.failed
      ∧ (FlowEngine.compensate fs reason now).1.error =
          some ⟨reason ++ " (compensated)", fs.currentState, now⟩
      ∧ (FlowEngine.compensate fs reason now).1.currentState = fs.currentState
      ∧ (FlowEngine.compensate fs reason now).1.history = fs.history) := by
  constructor
  · intro h
    simp [FlowEngine.compensate, h]
  · intro h
    have hne : ¬ fs.compensations.isEmpty := by
      simpa [List.isEmpty_iff] using h
    simp [FlowEngine.compensate, hne, compensate_foldl_trace,
      -List.foldl_reverse]

/-- C1 witness: a concrete instance with two recorded compensations, the
first-recorded one throwing; both are invoked, in reverse recording order. -/
theorem C1_compensation_witness :
    fsWithComps.compensations ≠ []
    ∧ (FlowEngine.compensate fsWithComps "boom" 7).2.2
        = fsWithComps.compensations.reverse
    ∧ (FlowEngine.compensate fsWithComps "boom" 7).2.1 = true
    ∧ (FlowEngine.compensate fsWithComps "boom" 7).1.compensations
        = fsWithComps.compensations
    ∧ (FlowEngine.compensate fsWithComps "boom" 7).1.status = Status.failed
    ∧ (FlowEngine.compensate fsWithComps "boom" 7).1.error
        = some ⟨"boom (compensated)", fsWithComps.currentState, 7⟩ := by
  have hne : fsWithComps.compensations ≠ [] := List.cons_ne_nil _ _
  have h := (C1_compensation_contract fsWithComps "boom" 7).2 hne
  exact ⟨hne, h.1, h.2.1, h.2.2.1, h.2.2.2.1, h.2.2.2.2.1⟩

end C1

section ExecuteTransitionUnfold

variable {Ctx : Type}

open StateMachine

/-- Let-free unfolding of `executeTransition`, convenient for case splits. -/
theorem executeTransition_unfold (cfg : StateMachineConfig Ctx)
    (s e : String) (ctx : Ctx) :
    executeTransition cfg s e ctx =
      match getState cfg s with
      | none =>
        (⟨false, .single s, .single s, e,
          some ("State \"" ++ s ++ "\" not found")⟩, ctx, ⟨0, [], false⟩)
      | some st =>
        match (findTransition cfg s e ctx).1 with
        | none =>
          (⟨false, .single s, .single s, e,
            some ("No valid transition for event \"" ++ e ++ "\" from state \""
              ++ s ++ "\"")⟩, (findTransition cfg s e ctx).2, ⟨0, [], false⟩)
        | some t =>
          match attemptLoop cfg st t (retryExponential t.retry)
                (retryDelayMs t.retry) 0 (retryMaxAttempts t.retry)
                (findTransition cfg s e ctx).2 with
          | (c, none, n, ds) =>
            (⟨true, .single s, .single t.toS, e, none⟩, c, ⟨n, ds, false⟩)
          | (c, some m, n, ds) =>
            (⟨false, .single s, .single s, e, some m⟩,
              (applyOnError cfg.onError m c).1,
              ⟨n, ds, (applyOnError cfg.onError m c).2⟩) := by
  unfold executeTransition
  split
  · rfl
  · rename_i st hst
    cases hf : (findTransition cfg s e ctx).1 with
    | none => simp [hf]
    | some t =>
      simp only [hf]
      rcases hlp : attemptLoop cfg st t (retryExponential t.retry)
          (retryDelayMs t.retry) 0 (retryMaxAttempts t.retry)
          (findTransition cfg s e ctx).2 with ⟨c, e', n, ds⟩
      cases e' with
      | none => simp [hlp]
      | some m => simp [hlp]

end ExecuteTransitionUnfold

section C2

variable {Ctx : Type}

open StateMachine

/-- C2: whenever `executeTransition` returns a failure outcome — unknown
state, no matching transition, or exhausted retries — its `toState` and
`fromState` both equal the input current state: the state does not move on
failure. -/
theorem C2_failure_keeps_state (cfg : StateMachineConfig Ctx)
    (s e : String) (ctx : Ctx)
    (h : (executeTransition cfg s e ctx).1.success = false) :
    (executeTransition cfg s e ctx).1.toState = StateRef.single s
    ∧ (executeTransition cfg s e ctx).1.fromState = StateRef.single s := by
  revert h
  rw [executeTransition_unfold cfg s e ctx]
  split
  · intro _; exact ⟨rfl, rfl⟩
  · split
    · intro _; exact ⟨rfl, rfl⟩
    · split
      · intro h; exact absurd h (by simp)
      · intro _; exact ⟨rfl, rfl⟩

/-- C2 witness: a lookup of a state missing from an empty configuration
fails and keeps the state. -/
theorem C2_failure_witness :
    (executeTransition cfgEmpty "x" "go" 0).1.success = false
    ∧ ((executeTransition cfgEmpty "x" "go" 0).1.toState = StateRef.single "x"
      ∧ (executeTransition cfgEmpty "x" "go" 0).1.fromState = StateRef.single "x") :=
  ⟨rfl, C2_failure_keeps_state cfgEmpty "x" "go" 0 rfl⟩

end C2

section C6

variable {Ctx : Type}

open StateMachine

/-- Under guards that do not mutate the context, the candidate loop of
`findTransition` is a first-match search with the `accepts` predicate and
leaves the context unchanged. -/
theorem findTransitionGo_pure (e : String) (ctx : Ctx) :
    ∀ l : List (Transition Ctx),
    (∀ t ∈ l, ∀ g, t.guard = some g → ∀ c, (g c).1 = c) →
    findTransitionGo e l ctx = (l.find? (accepts e ctx), ctx) := by
  intro l
  induction l with
  | nil => intro _; simp [findTransitionGo]
  | cons t rest ih =>
    intro hpure
    have hrest := fun t ht => hpure t (List.mem_cons_of_mem _ ht)
    by_cases he : t.event = e
    · cases hg : t.guard with
      | none =>
        simp [findTransitionGo, he, hg, List.find?, accepts]
      | some g =>
        have hctx : (g ctx).1 = ctx := hpure t (List.mem_cons_self t rest) g hg ctx
        cases hb : (g ctx).2 with
        | none =>
          have : accepts e ctx t = false := by simp [accepts, he, hg, hb]
          simp [findTransitionGo, he, hg, hb, hctx, List.find?, this, ih hrest]
        | some b =>
          cases b with
          | true =>
            have : accepts e ctx t = true := by simp [accepts, he, hg, hb]
            simp [findTransitionGo, he, hg, hb, hctx, List.find?, this]
          | false =>
            have : accepts e ctx t = false := by simp [accepts, he, hg, hb]
            simp [findTransitionGo, he, hg, hb, hctx, List.find?, this, ih hrest]
    · have : accepts e ctx t = false := by simp [accepts, he]
      simp [findTransitionGo, he, List.find?, this, ih hrest]

/-- C6: transition resolution.  Candidates are the state-local transitions
followed by the matching global ones; the selected transition is the first
candidate whose event matches and whose guard is absent or returns truthy
(`accepts`), a raising or false guard being skipped without propagating an
error; and when no candidate accepts, `executeTransition` fails with the
`No valid transition` error, runs no hook or action (zero attempts, no
`onError`), and leaves the context unchanged.  Guards are assumed not to
mutate the context so that first-match acceptance is state-independent. -/
theorem C6_transition_resolution (cfg : StateMachineConfig Ctx)
    (s e : String) (ctx : Ctx) (st : StateNode Ctx)
    (hst : getState cfg s = some st)
    (hpure : ∀ t ∈ getTransitions cfg s, ∀ g, t.guard = some g →
      ∀ c, (g c).1 = c) :
    getTransitions cfg s
      = ownTransitions st ++ cfg.transitions.filter (matchesGlobalFrom s)
    ∧ findTransition cfg s e ctx
      = ((getTransitions cfg s).find? (accepts e ctx), ctx)
    ∧ ((getTransitions cfg s).find? (accepts e ctx) = none →
      executeTransition cfg s e ctx =
        (⟨false, .single s, .single s, e,
          some ("No valid transition for event \"" ++ e ++ "\" from state \""
            ++ s ++ "\"")⟩, ctx, ⟨0, [], false⟩)) := by
  have hgt : getTransitions cfg s
      = ownTransitions st ++ cfg.transitions.filter (matchesGlobalFrom s) := by
    simp [getTransitions, hst]
  have hfind : findTransition cfg s e ctx
      = ((getTransitions cfg s).find? (accepts e ctx), ctx) := by
    simp only [findTransition, hst]
    exact findTransitionGo_pure e ctx _ hpure
  refine ⟨hgt, hfind, ?_⟩
  intro hnone
  have hf : findTransition cfg s e ctx = (none, ctx) := by rw [hfind, hnone]
  rw [executeTransition_unfold, hst, hf]

/-- C6 witness: a first candidate with a throwing guard is skipped and the
unguarded second candidate on the same event is selected. -/
theorem C6_resolution_witness :
    findTransition cfgResolution "s" "go" 0 = (some tUnguarded, 0) := by
  have hpure : ∀ t ∈ getTransitions cfgResolution "s", ∀ g,
      t.guard = some g → ∀ c : Nat, (g c).1 = c := by
    intro t ht g hg c
    have hl : getTransitions cfgResolution "s" = [tGuardThrows, tUnguarded] := rfl
    rw [hl] at ht
    rcases List.mem_cons.mp ht with rfl | ht2
    · have : (fun c : Nat => (c, (none : Option Bool))) = g :=
        Option.some.inj hg
      rw [← this]
    · rcases List.mem_cons.mp ht2 with rfl | ht3
      · exact absurd hg (by simp [tUnguarded])
      · exact absurd ht3 (by simp)
  have h := C6_transition_resolution cfgResolution "s" "go" 0 stResolution
    rfl hpure
  exact h.2.1.trans rfl

end C6

section C5

variable {Ctx : Type}

open StateMachine

/-- `getState` only reads the configuration's `states`. -/
theorem getState_states_congr (cfg1 cfg2 : StateMachineConfig Ctx)
    (h : cfg1.states = cfg2.states) (n : String) :
    getState cfg1 n = getState cfg2 n := by
  simp [getState, h]

/-- `getTransitions` only reads `states` and `transitions`. -/
theorem getTransitions_congr (cfg1 cfg2 : StateMachineConfig Ctx)
    (hs : cfg1.states = cfg2.states) (ht : cfg1.transitions = cfg2.transitions)
    (n : String) : getTransitions cfg1 n = getTransitions cfg2 n := by
  simp only [getTransitions, getState_states_congr cfg1 cfg2 hs, ht]

/-- `findTransition` only reads `states` and `transitions`. -/
theorem findTransition_congr (cfg1 cfg2 : StateMachineConfig Ctx)
    (hs : cfg1.states = cfg2.states) (ht : cfg1.transitions = cfg2.transitions)
    (s e : String) (ctx : Ctx) :
    findTransition cfg1 s e ctx = findTransition cfg2 s e ctx := by
  simp only [findTransition, getState_states_congr cfg1 cfg2 hs,
    getTransitions_congr cfg1 cfg2 hs ht]

/-- A single attempt only reads the configuration's `states`. -/
theorem attemptOnce_congr (cfg1 cfg2 : StateMachineConfig Ctx)
    (hs : cfg1.states = cfg2.states) (st : StateNode Ctx) (t : Transition Ctx)
    (c : Ctx) : attemptOnce cfg1 st t c = attemptOnce cfg2 st t c := by
  simp only [attemptOnce, getState_states_congr cfg1 cfg2 hs]

/-- The retry loop only reads the configuration's `states`. -/
theorem attemptLoop_congr (cfg1 cfg2 : StateMachineConfig Ctx)
    (hs : cfg1.states = cfg2.states) (st : StateNode Ctx) (t : Transition Ctx)
    (expo : Bool) (dm : Nat) :
    ∀ (remaining attempt : Nat) (c : Ctx),
    attemptLoop cfg1 st t expo dm attempt remaining c
      = attemptLoop cfg2 st t expo dm attempt remaining c := by
  intro remaining
  induction remaining with
  | zero =>
    intro attempt c
    unfold attemptLoop
    rw [attemptOnce_congr cfg1 cfg2 hs]
  | succ rem ih =>
    intro attempt c
    unfold attemptLoop
    rw [attemptOnce_congr cfg1 cfg2 hs]
    simp only [ih]

/-- `executeTransition` depends on the configuration only through `states`,
`transitions`, and the behaviour of `applyOnError` on its handler. -/
theorem executeTransition_congr (cfg1 cfg2 : StateMachineConfig Ctx)
    (hs : cfg1.states = cfg2.states) (ht : cfg1.transitions = cfg2.transitions)
    (ho : ∀ m c, applyOnError cfg1.onError m c = applyOnError cfg2.onError m c)
    (s e : String) (ctx : Ctx) :
    executeTransition cfg1 s e ctx = executeTransition cfg2 s e ctx := by
  rw [executeTransition_unfold, executeTransition_unfold]
  simp only [getState_states_congr cfg1 cfg2 hs,
    findTransition_congr cfg1 cfg2 hs ht,
    attemptLoop_congr cfg1 cfg2 hs, ho]

/-- Shape of the retry loop's instrumentation: at least one attempt runs, at
most `remaining + 1` run, and the scheduled delays are exactly the backoff
formula applied at the attempt indices traversed. -/
theorem attemptLoop_spec (cfg : StateMachineConfig Ctx) (st : StateNode Ctx)
    (t : Transition Ctx) (expo : Bool) (dm : Nat) :
    ∀ (remaining attempt : Nat) (ctx : Ctx),
    1 ≤ (attemptLoop cfg st t expo dm attempt remaining ctx).2.2.1
    ∧ (attemptLoop cfg st t expo dm attempt remaining ctx).2.2.1 ≤ remaining + 1
    ∧ (attemptLoop cfg st t expo dm attempt remaining ctx).2.2.2
      = (List.range ((attemptLoop cfg st t expo dm attempt remaining ctx).2.2.1 - 1)).map
          (fun i => if expo then dm * 2 ^ (attempt + i) else dm * (attempt + i + 1)) := by
  intro remaining
  induction remaining with
  | zero =>
    intro attempt ctx
    unfold attemptLoop
    rcases attemptOnce cfg st t ctx with ⟨c, e'⟩
    cases e' <;> simp
  | succ rem ih =>
    intro attempt ctx
    unfold attemptLoop
    rcases attemptOnce cfg st t ctx with ⟨c, e'⟩
    cases e' with
    | none => simp
    | some m =>
      obtain ⟨h1, h2, h3⟩ := ih (attempt + 1) c
      rcases hrec : attemptLoop cfg st t expo dm (attempt + 1) rem c
        with ⟨c', e2, n, ds⟩
      rw [hrec] at h1 h2 h3
      simp only [hrec]
      simp only at h1 h2 h3
      obtain ⟨k, rfl⟩ : ∃ k, n = k + 1 := ⟨n - 1, by omega⟩
      refine ⟨by omega, by omega, ?_⟩
      simp only [Nat.add_sub_cancel] at h3 ⊢
      rw [h3, List.range_succ_eq_map, List.map_cons, List.map_map]
      refine congrArg₂ List.cons (by simp) ?_
      apply List.map_congr_left
      intro i _
      have hswap : attempt + 1 + i = attempt + (i + 1) := by omega
      simp only [Function.comp, Nat.succ_eq_add_one, hswap]

/-- C5: retry schedule and `onError`.  Once a transition is selected, the
exit/action/validate/entry sequence runs between 1 and `maxAttempts + 1`
times; the delay scheduled between attempt `i` (0-indexed) and attempt
`i + 1` is `delayMs * (i + 1)` for linear backoff and `delayMs * 2 ^ i` for
exponential backoff; the definition's `onError` handler is invoked exactly
when the outcome is a failure (all attempts failed) and a handler is
registered — never on success; and an exception raised by `onError` itself
is swallowed: the call's outcome is unchanged if the handler's thrown error
is altered while its context effect is kept. -/
theorem C5_retry_schedule (cfg : StateMachineConfig Ctx) (s e : String)
    (ctx : Ctx) (st : StateNode Ctx) (t : Transition Ctx)
    (hst : getState cfg s = some st)
    (hft : (findTransition cfg s e ctx).1 = some t) :
    1 ≤ (executeTransition cfg s e ctx).2.2.attempts
    ∧ (executeTransition cfg s e ctx).2.2.attempts
        ≤ retryMaxAttempts t.retry + 1
    ∧ (executeTransition cfg s e ctx).2.2.delays
        = (List.range ((executeTransition cfg s e ctx).2.2.attempts - 1)).map
            (fun i => if retryExponential t.retry
              then retryDelayMs t.retry * 2 ^ i
              else retryDelayMs t.retry * (i + 1))
    ∧ (executeTransition cfg s e ctx).2.2.onErrorInvoked
        = (!(executeTransition cfg s e ctx).1.success && cfg.onError.isSome)
    ∧ ((executeTransition cfg s e ctx).1.success = true →
        (executeTransition cfg s e ctx).2.2.onErrorInvoked = false)
    ∧ (∀ f g : String → Ctx → Ctx × Option String,
        (∀ m c, (f m c).1 = (g m c).1) →
        executeTransition { cfg with onError := some f } s e ctx
          = executeTransition { cfg with onError := some g } s e ctx) := by
  have hswallow : ∀ f g : String → Ctx → Ctx × Option String,
      (∀ m c, (f m c).1 = (g m c).1) →
      executeTransition { cfg with onError := some f } s e ctx
        = executeTransition { cfg with onError := some g } s e ctx := by
    intro f g hfg
    apply executeTransition_congr
    · rfl
    · rfl
    · intro m c
      simp only [applyOnError]
      exact Prod.ext (hfg m c) rfl
  have hloop := attemptLoop_spec cfg st t (retryExponential t.retry)
    (retryDelayMs t.retry) (retryMaxAttempts t.retry) 0
    (findTransition cfg s e ctx).2
  rcases hlp : attemptLoop cfg st t (retryExponential t.retry)
      (retryDelayMs t.retry) 0 (retryMaxAttempts t.retry)
      (findTransition cfg s e ctx).2 with ⟨c, e2, n, ds⟩
  rw [hlp] at hloop
  obtain ⟨h1, h2, h3⟩ := hloop
  simp only at h1 h2 h3
  cases e2 with
  | none =>
    have hexec : executeTransition cfg s e ctx
        = (⟨true, .single s, .single t.toS, e, none⟩, c, ⟨n, ds, false⟩) := by
      rw [executeTransition_unfold]
      simp only [hst, hft, hlp]
    rw [hexec]
    exact ⟨h1, h2, by simpa using h3, by simp, by simp, hswallow⟩
  | some m =>
    have hexec : executeTransition cfg s e ctx
        = (⟨false, .single s, .single s, e, some m⟩,
            (applyOnError cfg.onError m c).1,
            ⟨n, ds, (applyOnError cfg.onError m c).2⟩) := by
      rw [executeTransition_unfold]
      simp only [hst, hft, hlp]
    rw [hexec]
    refine ⟨h1, h2, by simpa using h3, ?_, by simp, hswallow⟩
    simp only [applyOnError]
    cases cfg.onError <;> simp

/-- C5 witness: an always-failing action with
`{maxAttempts: 2, backoff: exponential, delayMs: 10}` runs three attempts
with delays `[10, 20]` and invokes the registered `onError` handler. -/
theorem C5_retry_witness :
    1 ≤ (executeTransition cfgRetry "s" "go" 0).2.2.attempts
    ∧ (executeTransition cfgRetry "s" "go" 0).2.2.attempts
        ≤ retryMaxAttempts tRetry.retry + 1
    ∧ (executeTransition cfgRetry "s" "go" 0).2.2.delays
        = (List.range ((executeTransition cfgRetry "s" "go" 0).2.2.attempts - 1)).map
            (fun i => if retryExponential tRetry.retry
              then retryDelayMs tRetry.retry * 2 ^ i
              else retryDelayMs tRetry.retry * (i + 1))
    ∧ (executeTransition cfgRetry "s" "go" 0).2.2.onErrorInvoked
        = (!(executeTransition cfgRetry "s" "go" 0).1.success
            && cfgRetry.onError.isSome)
    ∧ (executeTransition cfgRetry "s" "go" 0).2.2.delays = [10, 20]
    ∧ (executeTransition cfgRetry "s" "go" 0).2.2.attempts = 3
    ∧ (executeTransition cfgRetry "s" "go" 0).2.2.onErrorInvoked = true := by
  have h := C5_retry_schedule cfgRetry "s" "go" 0 stRetry tRetry rfl rfl
  exact ⟨h.1, h.2.1, h.2.2.1, h.2.2.2.1, rfl, rfl, rfl⟩

end C5

section C4

variable {Ctx : Type}

open StateMachine FlowEngine

/-- Every `executeTransition` outcome carries a single (non-list) target
state: successes move to the transition's `to` string, failures stay at the
input state string. -/
theorem executeTransition_toState_single (cfg : StateMachineConfig Ctx)
    (s e : String) (ctx : Ctx) :
    ∃ x, (executeTransition cfg s e ctx).1.toState = StateRef.single x := by
  rw [executeTransition_unfold cfg s e ctx]
  split
  · exact ⟨s, rfl⟩
  · split
    · exact ⟨s, rfl⟩
    · rename_i st hst t hft
      split
      · exact ⟨t.toS, rfl⟩
      · exact ⟨s, rfl⟩

/-- The broadcast produces one result per region. -/
theorem regionResults_length (cfg : StateMachineConfig Ctx) (e : String) :
    ∀ (l : List String) (ctx : Ctx),
    (regionResults cfg e l ctx).1.length = l.length := by
  intro l
  induction l with
  | nil => intro ctx; simp [regionResults]
  | cons s rest ih => intro ctx; simp [regionResults, ih]

/-- Every broadcast region result has a single target state. -/
theorem regionResults_toState_single (cfg : StateMachineConfig Ctx) (e : String) :
    ∀ (l : List String) (ctx : Ctx),
    ∀ r ∈ (regionResults cfg e l ctx).1, ∃ x, r.toState = StateRef.single x := by
  intro l
  induction l with
  | nil => intro ctx r hr; simp [regionResults] at hr
  | cons s rest ih =>
    intro ctx r hr
    simp only [regionResults] at hr
    rcases List.mem_cons.mp hr with rfl | hr2
    · exact executeTransition_toState_single cfg s e ctx
    · exact ih _ r hr2

/-- The merge step never throws when every result's target is single, keeps
the length, and leaves non-accepting regions' entries unchanged. -/
theorem mergeRegions_spec :
    ∀ (ss : List String) (ts : List TransitionResult),
    ts.length = ss.length →
    (∀ r ∈ ts, ∃ x, r.toState = StateRef.single x) →
    ∃ ns, mergeRegions ss ts = .ok ns ∧ ns.length = ss.length
      ∧ (∀ i (h1 : i < ss.length) (h2 : i < ts.length) (h3 : i < ns.length),
          (ts.get ⟨i, h2⟩).success = false →
          ns.get ⟨i, h3⟩ = ss.get ⟨i, h1⟩) := by
  intro ss
  induction ss with
  | nil =>
    intro ts hlen _
    exact ⟨[], by cases ts with
      | nil => rfl
      | cons t ts' => simp at hlen, rfl,
      fun i h1 => absurd h1 (Nat.not_lt_zero i)⟩
  | cons s rest ih =>
    intro ts hlen hsingle
    cases ts with
    | nil => simp at hlen
    | cons t ts' =>
      have hlen' : ts'.length = rest.length := by simpa using hlen
      have hsingle' : ∀ r ∈ ts', ∃ x, r.toState = StateRef.single x :=
        fun r hr => hsingle r (List.mem_cons_of_mem _ hr)
      obtain ⟨ns', hmerge, hlen2, hidx⟩ := ih ts' hlen' hsingle'
      cases hsucc : t.success with
      | true =>
        obtain ⟨x, hx⟩ := hsingle t (List.mem_cons_self _ _)
        refine ⟨x :: ns', ?_, by simp [hlen2], ?_⟩
        · simp [mergeRegions, hsucc, hx, hmerge]
        · intro i h1 h2 h3 hfail
          cases i with
          | zero =>
            rw [show (t :: ts').get ⟨0, h2⟩ = t from rfl, hsucc] at hfail
            cases hfail
          | succ j =>
            simp only [List.length_cons] at h1 h2 h3
            exact hidx j (by omega) (by omega) (by omega) hfail
      | false =>
        refine ⟨s :: ns', ?_, by simp [hlen2], ?_⟩
        · simp [mergeRegions, hsucc, hmerge]
        · intro i h1 h2 h3 hfail
          cases i with
          | zero => rfl
          | succ j =>
            simp only [List.length_cons] at h1 h2 h3
            exact hidx j (by omega) (by omega) (by omega) hfail

/-- C4: parallel broadcast dispatch.  With no target region the dispatcher
never throws; it returns a region list of the same length in which every
region whose transition failed keeps its previous entry; the outcome is a
success exactly when at least one region's transition succeeded (the filter
of successes is non-empty); and with zero accepting regions it is a failure
carrying the "No region accepted the event" error with the region list
unchanged. -/
theorem C4_parallel_broadcast (cfg : StateMachineConfig Ctx)
    (states : List String) (opts : FlowExecuteOptions Ctx) (ctx : Ctx)
    (hbroadcast : opts.targetRegion = none) :
    ∃ ns,
      executeParallelTransition cfg states opts ctx
        = (.ok ⟨!((regionResults cfg opts.event states ctx).1.filter
              (fun t => t.success)).isEmpty,
            .multi states, .multi ns, opts.event,
            if ((regionResults cfg opts.event states ctx).1.filter
                (fun t => t.success)).isEmpty
            then some "No region accepted the event" else none⟩,
          (regionResults cfg opts.event states ctx).2)
      ∧ ns.length = states.length
      ∧ (∀ i (h1 : i < states.length)
          (h2 : i < (regionResults cfg opts.event states ctx).1.length)
          (h3 : i < ns.length),
          ((regionResults cfg opts.event states ctx).1.get ⟨i, h2⟩).success = false →
          ns.get ⟨i, h3⟩ = states.get ⟨i, h1⟩)
      ∧ (((regionResults cfg opts.event states ctx).1.filter
          (fun t => t.success)).isEmpty = true → ns = states) := by
  have hsingle := regionResults_toState_single cfg opts.event states ctx
  have hlen := regionResults_length cfg opts.event states ctx
  cases hemp : ((regionResults cfg opts.event states ctx).1.filter
      (fun t => t.success)).isEmpty with
  | true =>
    refine ⟨states, ?_, rfl, ?_, fun _ => rfl⟩
    · simp only [executeParallelTransition, hbroadcast, hemp]
      simp
    · intro i h1 h2 h3 _
      rfl
  | false =>
    obtain ⟨ns, hmerge, hlen2, hidx⟩ := mergeRegions_spec states
      (regionResults cfg opts.event states ctx).1 hlen hsingle
    refine ⟨ns, ?_, hlen2, hidx, ?_⟩
    · simp only [executeParallelTransition, hbroadcast, hemp, hmerge]
      simp
    · intro habs
      exact Bool.noConfusion habs

/-- C4 witness: two regions, only the first accepting; the merged list keeps
the second region's entry and the outcome is a success. -/
theorem C4_broadcast_witness :
    optsBroadcast.targetRegion = none
    ∧ (∃ ns,
        executeParallelTransition cfgBroadcast ["r1a", "r2a"] optsBroadcast 0
          = (.ok ⟨!((regionResults cfgBroadcast optsBroadcast.event
                ["r1a", "r2a"] 0).1.filter (fun t => t.success)).isEmpty,
              .multi ["r1a", "r2a"], .multi ns, optsBroadcast.event,
              if ((regionResults cfgBroadcast optsBroadcast.event
                  ["r1a", "r2a"] 0).1.filter (fun t => t.success)).isEmpty
              then some "No region accepted the event" else none⟩,
            (regionResults cfgBroadcast optsBroadcast.event ["r1a", "r2a"] 0).2)
        ∧ ns.length = (["r1a", "r2a"] : List String).length
        ∧ (∀ i (h1 : i < (["r1a", "r2a"] : List String).length)
            (h2 : i < (regionResults cfgBroadcast optsBroadcast.event
              ["r1a", "r2a"] 0).1.length)
            (h3 : i < ns.length),
            ((regionResults cfgBroadcast optsBroadcast.event
              ["r1a", "r2a"] 0).1.get ⟨i, h2⟩).success = false →
            ns.get ⟨i, h3⟩ = (["r1a", "r2a"] : List String).get ⟨i, h1⟩)
        ∧ (((regionResults cfgBroadcast optsBroadcast.event
            ["r1a", "r2a"] 0).1.filter (fun t => t.success)).isEmpty = true →
            ns = ["r1a", "r2a"]))
    ∧ (executeParallelTransition cfgBroadcast ["r1a", "r2a"] optsBroadcast 0).1
        = .ok ⟨true, .multi ["r1a", "r2a"], .multi ["r1b", "r2a"], "go", none⟩ :=
  ⟨rfl, C4_parallel_broadcast cfgBroadcast ["r1a", "r2a"] optsBroadcast 0 rfl, rfl⟩

end C4

section C3

variable {Ctx : Type}

open FlowEngine

/-- `save` never touches the idempotency-key map. -/
theorem save_keys (w : Storage Ctx) (fs : FlowState Ctx) :
    (w.save fs).idempotencyKeys = w.idempotencyKeys := rfl

/-- The compensation-and-save failure path never touches the key map. -/
theorem handleFailure_keys (w : Storage Ctx) (fs : FlowState Ctx)
    (e m : String) (now : Nat) :
    (handleFailure w fs e m now).1.idempotencyKeys = w.idempotencyKeys := rfl

/-- The active-core step never touches the key map. -/
theorem executeCoreActive_keys (cfg : StateMachineConfig Ctx) (now : Nat)
    (w : Storage Ctx) (opts : FlowExecuteOptions Ctx) (fs1 : FlowState Ctx) :
    (executeCoreActive cfg now w opts fs1).1.idempotencyKeys
      = w.idempotencyKeys := by
  unfold executeCoreActive
  rcases coreTransition cfg fs1 opts with ⟨r, c⟩
  cases r with
  | error m => rfl
  | ok tr =>
    cases htr : tr.success with
    | true =>
      simp only [htr, if_true]
      exact save_keys w _
    | false =>
      simp only [htr, Bool.false_eq_true, if_false]
      exact handleFailure_keys w _ opts.event _ now

/-- `executeCore` never touches the key map: it only reads and saves flow
instances. -/
theorem executeCore_keys (cfg : StateMachineConfig Ctx)
    (merge : Ctx → Ctx → Ctx) (now : Nat) (w : Storage Ctx)
    (flowId : String) (opts : FlowExecuteOptions Ctx) :
    (executeCore cfg merge now w flowId opts).1.idempotencyKeys
      = w.idempotencyKeys := by
  unfold executeCore
  cases hget : w.get flowId with
  | none => rfl
  | some fs0 =>
    show (if fs0.status ≠ Status.active then
        (w, Except.error ("Flow is not active. Current status: "
          ++ fs0.status.toStr))
      else executeCoreActive cfg now w opts
        (mergeData merge fs0 opts.data)).1.idempotencyKeys
      = w.idempotencyKeys
    split
    · rfl
    · exact executeCoreActive_keys cfg now w opts _

/-- After an `execute` call whose options carry an idempotency key, that key
is bound in the store (to this flow if it was fresh, otherwise to whatever
it was already bound to). -/
theorem execute_binds_key (cfg : StateMachineConfig Ctx)
    (merge : Ctx → Ctx → Ctx) (now : Nat) (w : Storage Ctx)
    (flowId : String) (opts : FlowExecuteOptions Ctx) (k : String)
    (hk : opts.idempotencyKey = some k) :
    ∃ fid0, Storage.getFlowIdByIdempotencyKey
      (FlowEngine.execute cfg merge now w flowId opts).1 k = some fid0 := by
  have hexe : FlowEngine.execute cfg merge now w flowId opts
      = executeWithKey cfg merge now w flowId opts k := by
    unfold FlowEngine.execute
    rw [hk]
  rw [hexe]
  unfold executeWithKey
  cases hkey : Storage.getFlowIdByIdempotencyKey w k with
  | some v =>
    cases hget : Storage.get w flowId with
    | some fs => exact ⟨v, hkey⟩
    | none =>
      refine ⟨v, ?_⟩
      show assocGet (executeCore cfg merge now w flowId opts).1.idempotencyKeys k
        = some v
      rw [executeCore_keys]
      exact hkey
  | none =>
    refine ⟨flowId, ?_⟩
    show assocGet (executeCore cfg merge now
      (w.saveIdempotencyKey k flowId) flowId opts).1.idempotencyKeys k = some flowId
    rw [executeCore_keys]
    exact assocGet_assocSet_self w.idempotencyKeys k flowId

/-- C3: idempotent execute.  Once a first `execute` call with idempotency
key `k` has run on an existing flow, every further call with the same
options is a no-op: it leaves the store — hence the flow's `currentState`,
`history`, `context` and `status` — exactly as the first call left it, and
returns a success whose transition records `from == to ==` the flow's
current state; so N ≥ 2 calls are equivalent to one. -/
theorem C3_idempotent_execute (cfg : StateMachineConfig Ctx)
    (merge : Ctx → Ctx → Ctx) (now : Nat) (w : Storage Ctx)
    (flowId : String) (opts : FlowExecuteOptions Ctx) (k : String)
    (fs1 : FlowState Ctx)
    (hk : opts.idempotencyKey = some k)
    (hflow : Storage.get (FlowEngine.execute cfg merge now w flowId opts).1
      flowId = some fs1) :
    FlowEngine.execute cfg merge now
        ((FlowEngine.execute cfg merge now w flowId opts).1) flowId opts
      = ((FlowEngine.execute cfg merge now w flowId opts).1,
        .ok ⟨true, fs1,
          ⟨true, fs1.currentState, fs1.currentState, opts.event, none⟩, none⟩)
    ∧ ∀ n, (fun w' => (FlowEngine.execute cfg merge now w' flowId opts).1)^[n]
        ((FlowEngine.execute cfg merge now w flowId opts).1)
      = (FlowEngine.execute cfg merge now w flowId opts).1 := by
  obtain ⟨fid0, hbound⟩ := execute_binds_key cfg merge now w flowId opts k hk
  have hsecond : FlowEngine.execute cfg merge now
      ((FlowEngine.execute cfg merge now w flowId opts).1) flowId opts
    = ((FlowEngine.execute cfg merge now w flowId opts).1,
      .ok ⟨true, fs1,
        ⟨true, fs1.currentState, fs1.currentState, opts.event, none⟩, none⟩) := by
    have hexe : FlowEngine.execute cfg merge now
        ((FlowEngine.execute cfg merge now w flowId opts).1) flowId opts
      = executeWithKey cfg merge now
        ((FlowEngine.execute cfg merge now w flowId opts).1) flowId opts k := by
      unfold FlowEngine.execute
      rw [hk]
    rw [hexe]
    unfold executeWithKey
    rw [hbound, hflow]
  refine ⟨hsecond, ?_⟩
  intro n
  induction n with
  | zero => rfl
  | succ m ih =>
    rw [Function.iterate_succ_apply', ih, hsecond]

/-- C3 witness: the simple order flow, fired twice with key "k1": the first
call advances pending → approved, the second is a no-op success reporting
`from == to == "approved"` and the store is a fixed point. -/
theorem C3_idempotent_witness :
    optsIdem.idempotencyKey = some "k1"
    ∧ Storage.get (FlowEngine.execute cfgSimple mergeRight 3 wSimple "f"
        optsIdem).1 "f" = some fsApprovedFlow
    ∧ FlowEngine.execute cfgSimple mergeRight 3
        ((FlowEngine.execute cfgSimple mergeRight 3 wSimple "f" optsIdem).1)
        "f" optsIdem
      = ((FlowEngine.execute cfgSimple mergeRight 3 wSimple "f" optsIdem).1,
        .ok ⟨true, fsApprovedFlow,
          ⟨true, fsApprovedFlow.currentState, fsApprovedFlow.currentState,
            "APPROVE", none⟩, none⟩)
    ∧ ∀ n, (fun w' => (FlowEngine.execute cfgSimple mergeRight 3 w' "f"
        optsIdem).1)^[n]
        ((FlowEngine.execute cfgSimple mergeRight 3 wSimple "f" optsIdem).1)
      = (FlowEngine.execute cfgSimple mergeRight 3 wSimple "f" optsIdem).1 := by
  have h := C3_idempotent_execute cfgSimple mergeRight 3 wSimple "f" optsIdem
    "k1" fsApprovedFlow rfl rfl
  exact ⟨rfl, rfl, h.1, h.2⟩

end C3

section C10

variable {Ctx : Type}

open FlowEngine

/-- With a fresh key, `execute` binds the key first and only then runs the
core. -/
theorem execute_fresh_key (cfg : StateMachineConfig Ctx)
    (merge : Ctx → Ctx → Ctx) (now : Nat) (w : Storage Ctx)
    (flowId : String) (opts : FlowExecuteOptions Ctx) (k : String)
    (hk : opts.idempotencyKey = some k)
    (hfresh : Storage.getFlowIdByIdempotencyKey w k = none) :
    FlowEngine.execute cfg merge now w flowId opts
      = executeCore cfg merge now (w.saveIdempotencyKey k flowId) flowId opts := by
  unfold FlowEngine.execute
  rw [hk]
  show executeWithKey cfg merge now w flowId opts k
    = executeCore cfg merge now (w.saveIdempotencyKey k flowId) flowId opts
  unfold executeWithKey
  rw [hfresh]

/-- `executeCore` on a missing flow raises `NotFound` and leaves the store
untouched. -/
theorem executeCore_notFound (cfg : StateMachineConfig Ctx)
    (merge : Ctx → Ctx → Ctx) (now : Nat) (w : Storage Ctx)
    (flowId : String) (opts : FlowExecuteOptions Ctx)
    (hget : Storage.get w flowId = none) :
    executeCore cfg merge now w flowId opts
      = (w, .error ("Flow with ID \"" ++ flowId ++ "\" not found")) := by
  unfold executeCore
  rw [hget]

/-- `executeCore` on a non-active flow raises `NotActive` and leaves the
store untouched. -/
theorem executeCore_notActive (cfg : StateMachineConfig Ctx)
    (merge : Ctx → Ctx → Ctx) (now : Nat) (w : Storage Ctx)
    (flowId : String) (opts : FlowExecuteOptions Ctx) (fs : FlowState Ctx)
    (hget : Storage.get w flowId = some fs)
    (hst : fs.status ≠ Status.active) :
    executeCore cfg merge now w flowId opts
      = (w, .error ("Flow is not active. Current status: " ++ fs.status.toStr)) := by
  unfold executeCore
  rw [hget]
  exact if_pos hst

/-- With a bound key and an existing instance, `execute` is a no-op
success. -/
theorem executeWithKey_bound_found (cfg : StateMachineConfig Ctx)
    (merge : Ctx → Ctx → Ctx) (now : Nat) (w : Storage Ctx)
    (flowId : String) (opts : FlowExecuteOptions Ctx) (k v : String)
    (fs : FlowState Ctx)
    (hkey : Storage.getFlowIdByIdempotencyKey w k = some v)
    (hget : Storage.get w flowId = some fs) :
    executeWithKey cfg merge now w flowId opts k
      = (w, .ok ⟨true, fs,
        ⟨true, fs.currentState, fs.currentState, opts.event, none⟩, none⟩) := by
  unfold executeWithKey
  rw [hkey, hget]

/-- With a bound key but a missing instance, `execute` falls through to the
core. -/
theorem executeWithKey_bound_missing (cfg : StateMachineConfig Ctx)
    (merge : Ctx → Ctx → Ctx) (now : Nat) (w : Storage Ctx)
    (flowId : String) (opts : FlowExecuteOptions Ctx) (k v : String)
    (hkey : Storage.getFlowIdByIdempotencyKey w k = some v)
    (hget : Storage.get w flowId = none) :
    executeWithKey cfg merge now w flowId opts k
      = executeCore cfg merge now w flowId opts := by
  unfold executeWithKey
  rw [hkey, hget]

/-- C10 counterexample: with an empty store, a first `execute` under a fresh
key raises `NotFound` and leaves the key bound — the claim's premise — yet
the subsequent call with the same key raises `NotFound` again instead of
returning a no-op success. -/
theorem C10_notFound_counterexample :
    (FlowEngine.execute cfgSimple mergeRight 0 wEmpty "missing" optsKey2).2
      = .error "Flow with ID \"missing\" not found"
    ∧ Storage.getFlowIdByIdempotencyKey
        (FlowEngine.execute cfgSimple mergeRight 0 wEmpty "missing" optsKey2).1
        "k2" = some "missing"
    ∧ (FlowEngine.execute cfgSimple mergeRight 0
        ((FlowEngine.execute cfgSimple mergeRight 0 wEmpty "missing"
          optsKey2).1) "missing" optsKey2).2
      = .error "Flow with ID \"missing\" not found" :=
  ⟨rfl, rfl, rfl⟩

/-- C10 (amended): `execute` binds a fresh idempotency key to the flow
before loading the instance or checking its status, so the key stays bound
when the core then raises `NotFound` or `NotActive`.  When the flow exists
but is not active (for example paused), every subsequent `execute` with the
same key returns a no-op success carrying the current state even though the
event was never applied; when the flow does not exist, subsequent calls
raise `NotFound` again rather than a no-op success. -/
theorem C10_key_binding_on_failure (cfg : StateMachineConfig Ctx)
    (merge : Ctx → Ctx → Ctx) (now : Nat) (w : Storage Ctx)
    (flowId : String) (opts : FlowExecuteOptions Ctx) (k : String)
    (hk : opts.idempotencyKey = some k)
    (hfresh : Storage.getFlowIdByIdempotencyKey w k = none) :
    (Storage.get w flowId = none →
      FlowEngine.execute cfg merge now w flowId opts
        = (w.saveIdempotencyKey k flowId,
          .error ("Flow with ID \"" ++ flowId ++ "\" not found"))
      ∧ Storage.getFlowIdByIdempotencyKey
          (FlowEngine.execute cfg merge now w flowId opts).1 k = some flowId
      ∧ FlowEngine.execute cfg merge now
          ((FlowEngine.execute cfg merge now w flowId opts).1) flowId opts
        = (w.saveIdempotencyKey k flowId,
          .error ("Flow with ID \"" ++ flowId ++ "\" not found")))
    ∧ (∀ fs, Storage.get w flowId = some fs → fs.status ≠ Status.active →
      FlowEngine.execute cfg merge now w flowId opts
        = (w.saveIdempotencyKey k flowId,
          .error ("Flow is not active. Current status: " ++ fs.status.toStr))
      ∧ Storage.getFlowIdByIdempotencyKey
          (FlowEngine.execute cfg merge now w flowId opts).1 k = some flowId
      ∧ FlowEngine.execute cfg merge now
          ((FlowEngine.execute cfg merge now w flowId opts).1) flowId opts
        = (w.saveIdempotencyKey k flowId,
          .ok ⟨true, fs,
            ⟨true, fs.currentState, fs.currentState, opts.event, none⟩,
            none⟩)) := by
  have hw' : ∀ fid', Storage.get (w.saveIdempotencyKey k flowId) fid'
      = Storage.get w fid' := fun _ => rfl
  have hbound : Storage.getFlowIdByIdempotencyKey
      (w.saveIdempotencyKey k flowId) k = some flowId :=
    assocGet_assocSet_self w.idempotencyKeys k flowId
  have hsecond : ∀ w1 : Storage Ctx,
      FlowEngine.execute cfg merge now w1 flowId opts
        = executeWithKey cfg merge now w1 flowId opts k := by
    intro w1
    unfold FlowEngine.execute
    rw [hk]
  constructor
  · intro hget
    have hfirst : FlowEngine.execute cfg merge now w flowId opts
        = (w.saveIdempotencyKey k flowId,
          .error ("Flow with ID \"" ++ flowId ++ "\" not found")) := by
      rw [execute_fresh_key cfg merge now w flowId opts k hk hfresh]
      exact executeCore_notFound cfg merge now _ flowId opts
        ((hw' flowId).trans hget)
    refine ⟨hfirst, ?_, ?_⟩
    · rw [hfirst]
      exact hbound
    · rw [hfirst]
      rw [hsecond]
      rw [executeWithKey_bound_missing cfg merge now _ flowId opts k flowId
        hbound ((hw' flowId).trans hget)]
      exact executeCore_notFound cfg merge now _ flowId opts
        ((hw' flowId).trans hget)
  · intro fs hget hst
    have hfirst : FlowEngine.execute cfg merge now w flowId opts
        = (w.saveIdempotencyKey k flowId,
          .error ("Flow is not active. Current status: " ++ fs.status.toStr)) := by
      rw [execute_fresh_key cfg merge now w flowId opts k hk hfresh]
      exact executeCore_notActive cfg merge now _ flowId opts fs
        ((hw' flowId).trans hget) hst
    refine ⟨hfirst, ?_, ?_⟩
    · rw [hfirst]
      exact hbound
    · rw [hfirst]
      rw [hsecond]
      exact executeWithKey_bound_found cfg merge now _ flowId opts k flowId fs
        hbound ((hw' flowId).trans hget)

/-- C10 witness (amended claim): a paused flow; the first keyed call raises
`NotActive` but binds the key, and the second call is a no-op success even
though the event was never applied. -/
theorem C10_key_binding_witness :
    FlowEngine.execute cfgSimple mergeRight 0 wPaused "p" optsKey2
      = (wPaused.saveIdempotencyKey "k2" "p",
        .error ("Flow is not active. Current status: "
          ++ fsPausedFlow.status.toStr))
    ∧ Storage.getFlowIdByIdempotencyKey
        (FlowEngine.execute cfgSimple mergeRight 0 wPaused "p" optsKey2).1
        "k2" = some "p"
    ∧ FlowEngine.execute cfgSimple mergeRight 0
        ((FlowEngine.execute cfgSimple mergeRight 0 wPaused "p" optsKey2).1)
        "p" optsKey2
      = (wPaused.saveIdempotencyKey "k2" "p",
        .ok ⟨true, fsPausedFlow,
          ⟨true, fsPausedFlow.currentState, fsPausedFlow.currentState,
            "go", none⟩, none⟩) := by
  have h := (C10_key_binding_on_failure cfgSimple mergeRight 0 wPaused "p"
    optsKey2 "k2" rfl rfl).2 fsPausedFlow rfl (by decide)
  exact ⟨h.1, h.2.1, h.2.2⟩

end C10

section C7

open JsAlias

/-- C7 counterexample: `get` of flow "x" returns a snapshot (reference 2)
sharing the stored record's context object (reference 0); mutating a nested
field of that snapshot's context changes what a later `get` returns — from
`some []` before the mutation to `some [("k", "v")]` after — so `get` does
not return a deep copy. -/
theorem C7_shallow_copy_counterexample :
    (JsAlias.get cexHeap cexStore "x").2 = some 2
    ∧ assocGet cexHeap1.recs 2 = some cexRec
    ∧ readContext cexHeap1 2 = some []
    ∧ (JsAlias.get cexHeap2 cexStore "x").2 = some 3
    ∧ readContext (JsAlias.get cexHeap2 cexStore "x").1 3 = some [("k", "v")]
    ∧ some [("k", "v")] ≠ (some ([] : CtxObj)) :=
  ⟨rfl, rfl, rfl, rfl, rfl, by decide⟩

/-- C7 (amended): `save` stores and `get` returns shallow (top-level)
copies.  `get` allocates a fresh record whose own fields — including the
nested `context` reference — equal the stored ones, so reassigning a
top-level field of the snapshot never changes the stored record, and
`save(get(x))` leaves the stored instance equal to `x`; but the nested
objects (context, and likewise history and compensations) are shared by
reference, so mutating them through a snapshot does change what a later
`get` observes (the counterexample). -/
theorem C7_shallow_copy_contract (h : JsHeap) (store : List (String × Nat))
    (fid : String) (sref : Nat) (fsr : JsFlowRec)
    (hs : assocGet store fid = some sref)
    (hr : assocGet h.recs sref = some fsr)
    (hlt : sref < h.next)
    (hid : fsr.flowId = fid) :
    JsAlias.get h store fid
      = ({ h with recs := assocSet h.recs h.next fsr, next := h.next + 1 },
        some h.next)
    ∧ sref ≠ h.next
    ∧ assocGet (JsAlias.get h store fid).1.recs h.next = some fsr
    ∧ (∀ st', assocGet
        (setStatus (JsAlias.get h store fid).1 h.next st').recs sref
        = some fsr)
    ∧ assocGet (JsAlias.save (JsAlias.get h store fid).1 store h.next).2 fid
        = some (h.next + 1)
    ∧ assocGet (JsAlias.save (JsAlias.get h store fid).1 store h.next).1.recs
        (h.next + 1) = some fsr := by
  have hne : sref ≠ h.next := Nat.ne_of_lt hlt
  have hget : JsAlias.get h store fid
      = ({ h with recs := assocSet h.recs h.next fsr, next := h.next + 1 },
        some h.next) := by
    unfold JsAlias.get
    rw [hs]
    show getRef h sref = _
    unfold getRef
    rw [hr]
  have hsnap : assocGet (JsAlias.get h store fid).1.recs h.next = some fsr := by
    rw [hget]
    exact assocGet_assocSet_self h.recs h.next fsr
  have hstored : assocGet (JsAlias.get h store fid).1.recs sref = some fsr := by
    rw [hget]
    rw [assocGet_assocSet_ne h.recs h.next sref fsr hne]
    exact hr
  refine ⟨hget, hne, hsnap, ?_, ?_, ?_⟩
  · intro st'
    unfold setStatus
    show assocGet (match assocGet (JsAlias.get h store fid).1.recs h.next with
      | none => (JsAlias.get h store fid).1.recs
      | some r0 => assocSet (JsAlias.get h store fid).1.recs h.next
          { r0 with status := st' }) sref = some fsr
    rw [hsnap]
    rw [assocGet_assocSet_ne _ h.next sref _ hne]
    exact hstored
  · unfold JsAlias.save
    rw [hsnap]
    show assocGet (assocSet store fsr.flowId (JsAlias.get h store fid).1.next)
      fid = some (h.next + 1)
    rw [hid, hget]
    exact assocGet_assocSet_self store fid (h.next + 1)
  · unfold JsAlias.save
    rw [hsnap]
    show assocGet (assocSet (JsAlias.get h store fid).1.recs
      (JsAlias.get h store fid).1.next fsr) (h.next + 1) = some fsr
    rw [hget]
    exact assocGet_assocSet_self _ (h.next + 1) fsr

/-- C7 witness (amended claim) at the concrete heap: the snapshot is fresh,
shares the stored fields, top-level mutation does not leak, and
`save(get(x))` stores the record unchanged. -/
theorem C7_shallow_copy_witness :
    JsAlias.get cexHeap cexStore "x"
      = ({ cexHeap with recs := assocSet cexHeap.recs 2 cexRec, next := 3 },
        some 2)
    ∧ (1 : Nat) ≠ 2
    ∧ assocGet (JsAlias.get cexHeap cexStore "x").1.recs 2 = some cexRec
    ∧ (∀ st', assocGet
        (setStatus (JsAlias.get cexHeap cexStore "x").1 2 st').recs 1
        = some cexRec)
    ∧ assocGet (JsAlias.save (JsAlias.get cexHeap cexStore "x").1 cexStore 2).2
        "x" = some 3
    ∧ assocGet (JsAlias.save (JsAlias.get cexHeap cexStore "x").1
        cexStore 2).1.recs 3 = some cexRec := by
  have h := C7_shallow_copy_contract cexHeap cexStore "x" 1 cexRec rfl rfl
    (by decide) rfl
  exact h

end C7

section C8

variable {Ctx : Type}

/-- C8 counterexample: the flow sitting at single state "a" matches the
list-valued filter `["a", "b"]` (the code tests membership of the flow's
state in the requested list), although not every requested state is present
among the flow's active states. -/
theorem C8_list_filter_counterexample :
    Storage.list wFilter (some filtListAB) = [fsSingleA]
    ∧ Storage.matchesCurrentState (.single "a") (.multi ["a", "b"]) = true
    ∧ ¬ (∀ t ∈ (["a", "b"] : List String),
        t ∈ Storage.activeStateList (StateRef.single "a")) :=
  ⟨rfl, rfl, by decide⟩

/-- C8 (amended): the `currentState` filter of `list` keeps exactly the
flows accepted by `matchesCurrentState`.  A single-state filter matches iff
the requested state is among the flow's active state(s).  A list-valued
filter matches a parallel flow iff every requested state is present among
its region states, but matches a single-state flow iff the flow's one state
is a member of the requested list (not "every requested state present"). -/
theorem C8_currentState_filter (w : Storage Ctx) (tgt : StateRef) :
    Storage.list w (some ⟨none, none, none, none, some tgt⟩)
      = (w.flows.map Prod.snd).filter
          (fun s => Storage.matchesCurrentState s.currentState tgt)
    ∧ (∀ (cur : StateRef) (t : String),
        Storage.matchesCurrentState cur (.single t) = true
          ↔ t ∈ Storage.activeStateList cur)
    ∧ (∀ (cs ts : List String),
        Storage.matchesCurrentState (.multi cs) (.multi ts) = true
          ↔ ∀ t ∈ ts, t ∈ cs)
    ∧ (∀ (c : String) (ts : List String),
        Storage.matchesCurrentState (.single c) (.multi ts) = true ↔ c ∈ ts) := by
  refine ⟨?_, ?_, ?_, ?_⟩
  · simp [Storage.list, Storage.truthyStr]
  · intro cur t
    cases cur with
    | single c =>
      simp only [Storage.matchesCurrentState, Storage.activeStateList,
        List.mem_singleton, decide_eq_true_eq]
      exact eq_comm
    | multi cs => simp [Storage.matchesCurrentState, Storage.activeStateList]
  · intro cs ts
    simp [Storage.matchesCurrentState]
  · intro c ts
    simp [Storage.matchesCurrentState]

/-- C8 witness: the amended filter semantics at the concrete store. -/
theorem C8_filter_witness :
    Storage.list wFilter (some ⟨none, none, none, none,
        some (StateRef.multi ["a", "b"])⟩)
      = (wFilter.flows.map Prod.snd).filter
          (fun s => Storage.matchesCurrentState s.currentState
            (StateRef.multi ["a", "b"]))
    ∧ (Storage.matchesCurrentState (.single "a") (.multi ["a", "b"]) = true
        ↔ "a" ∈ (["a", "b"] : List String)) := by
  have h := C8_currentState_filter wFilter (StateRef.multi ["a", "b"])
  exact ⟨h.1, h.2.2.2 "a" ["a", "b"]⟩

end C8

section C9

variable {Ctx : Type}

open StateMachine FlowEngine

/-- Membership after a `Set`-style insert. -/
theorem mem_addUnique (acc : List String) (x y : String) :
    y ∈ addUnique acc x ↔ y ∈ acc ∨ y = x := by
  unfold addUnique
  by_cases hx : x ∈ acc
  · rw [if_pos (by simpa using hx)]
    constructor
    · exact Or.inl
    · rintro (hy | rfl)
      · exact hy
      · exact hx
  · rw [if_neg (by simpa using hx)]
    simp [List.mem_append]

/-- A `Set`-style insert preserves distinctness. -/
theorem nodup_addUnique (acc : List String) (x : String)
    (h : acc.Nodup) : (addUnique acc x).Nodup := by
  unfold addUnique
  by_cases hx : x ∈ acc
  · rw [if_pos (by simpa using hx)]
    exact h
  · rw [if_neg (by simpa using hx)]
    simp [List.nodup_append, h, hx]

/-- Folding `Set` inserts of the transitions' events keeps distinctness. -/
theorem nodup_foldl_events (ts : List (Transition Ctx)) :
    ∀ acc : List String, acc.Nodup →
    (ts.foldl (fun a t => addUnique a t.event) acc).Nodup := by
  induction ts with
  | nil => intro acc h; exact h
  | cons t rest ih =>
    intro acc h
    exact ih _ (nodup_addUnique acc t.event h)

/-- Membership after folding `Set` inserts of the transitions' events. -/
theorem mem_foldl_events (ts : List (Transition Ctx)) (y : String) :
    ∀ acc : List String,
    (y ∈ ts.foldl (fun a t => addUnique a t.event) acc
      ↔ y ∈ acc ∨ ∃ t ∈ ts, t.event = y) := by
  induction ts with
  | nil => intro acc; simp
  | cons t rest ih =>
    intro acc
    rw [List.foldl_cons, ih, mem_addUnique]
    constructor
    · rintro ((hy | rfl) | ⟨t', ht', rfl⟩)
      · exact Or.inl hy
      · exact Or.inr ⟨t, List.mem_cons_self t rest, rfl⟩
      · exact Or.inr ⟨t', List.mem_cons_of_mem _ ht', rfl⟩
    · rintro (hy | ⟨t', ht', rfl⟩)
      · exact Or.inl (Or.inl hy)
      · rcases List.mem_cons.mp ht' with rfl | ht2
        · exact Or.inl (Or.inr rfl)
        · exact Or.inr ⟨t', ht2, rfl⟩

/-- The region fold of `getPossibleTransitions` keeps distinctness. -/
theorem nodup_states_fold (cfg : StateMachineConfig Ctx) :
    ∀ (states : List String) (acc : List String), acc.Nodup →
    (states.foldl (fun acc s => (getTransitions cfg s).foldl
      (fun a t => addUnique a t.event) acc) acc).Nodup := by
  intro states
  induction states with
  | nil => intro acc h; exact h
  | cons s rest ih =>
    intro acc h
    exact ih _ (nodup_foldl_events _ acc h)

/-- Membership in the region fold of `getPossibleTransitions`. -/
theorem mem_states_fold (cfg : StateMachineConfig Ctx) (y : String) :
    ∀ (states : List String) (acc : List String),
    (y ∈ states.foldl (fun acc s => (getTransitions cfg s).foldl
        (fun a t => addUnique a t.event) acc) acc
      ↔ y ∈ acc ∨ ∃ s ∈ states, ∃ t ∈ getTransitions cfg s, t.event = y) := by
  intro states
  induction states with
  | nil => intro acc; simp
  | cons s rest ih =>
    intro acc
    rw [List.foldl_cons, ih, mem_foldl_events]
    constructor
    · rintro ((hy | ⟨t, ht, rfl⟩) | ⟨s', hs', t, ht, rfl⟩)
      · exact Or.inl hy
      · exact Or.inr ⟨s, List.mem_cons_self s rest, t, ht, rfl⟩
      · exact Or.inr ⟨s', List.mem_cons_of_mem _ hs', t, ht, rfl⟩
    · rintro (hy | ⟨s', hs', t, ht, rfl⟩)
      · exact Or.inl (Or.inl hy)
      · rcases List.mem_cons.mp hs' with rfl | hs2
        · exact Or.inl (Or.inr ⟨t, ht, rfl⟩)
        · exact Or.inr ⟨s', hs2, t, ht, rfl⟩

/-- C9 counterexample: a single non-parallel state with two transitions
sharing the event "go"; `getPossibleTransitions` returns `["go", "go"]`,
which contains a duplicate event name. -/
theorem C9_dedup_counterexample :
    FlowEngine.getPossibleTransitions cfgDup wDup "fs9" = .ok ["go", "go"]
    ∧ ¬ (["go", "go"] : List String).Nodup :=
  ⟨rfl, by decide⟩

/-- C9 (amended): for a parallel flow, `getPossibleTransitions` returns the
deduplicated union of the event names of the transitions available from the
active region states (no duplicates, insertion order); for a single-state
flow it returns the event names of the state's transitions in collection
order, retaining duplicates when several transitions share an event. -/
theorem C9_possible_transitions_contract (cfg : StateMachineConfig Ctx)
    (w : Storage Ctx) (fid : String) (fs : FlowState Ctx)
    (hget : Storage.get w fid = some fs) :
    (∀ s, fs.currentState = .single s →
      FlowEngine.getPossibleTransitions cfg w fid
        = .ok ((getTransitions cfg s).map (fun t => t.event)))
    ∧ (∀ states, fs.currentState = .multi states →
      ∃ l, FlowEngine.getPossibleTransitions cfg w fid = .ok l
        ∧ l.Nodup
        ∧ (∀ x, x ∈ l ↔ ∃ s ∈ states, ∃ t ∈ getTransitions cfg s,
            t.event = x)) := by
  have hbase : FlowEngine.getPossibleTransitions cfg w fid
      = .ok (possibleTransitionsOf cfg fs) := by
    unfold FlowEngine.getPossibleTransitions
    rw [hget]
  constructor
  · intro s hcur
    rw [hbase]
    unfold possibleTransitionsOf
    rw [hcur]
  · intro states hcur
    refine ⟨possibleTransitionsOf cfg fs, hbase, ?_, ?_⟩
    · unfold possibleTransitionsOf
      rw [hcur]
      exact nodup_states_fold cfg states [] List.nodup_nil
    · intro x
      unfold possibleTransitionsOf
      rw [hcur]
      rw [mem_states_fold cfg x states []]
      simp

/-- C9 witness: the single-state flow yields the raw (duplicated) event
map, and the parallel flow over "s" and "s2" yields the deduplicated
`["go"]`. -/
theorem C9_possible_transitions_witness :
    FlowEngine.getPossibleTransitions cfgDup wDup "fs9"
      = .ok ((getTransitions cfgDup "s").map (fun t => t.event))
    ∧ FlowEngine.getPossibleTransitions cfgDup wDup "fp9" = .ok ["go"]
    ∧ (["go"] : List String).Nodup := by
  have h := C9_possible_transitions_contract cfgDup wDup "fs9" fsAtS rfl
  exact ⟨h.1 "s" rfl, rfl, by decide⟩

end C9

end TsFlow
